import Mathlib

/-!
# Ration store management: the handlers of `server.js` over an explicit store

The Express handlers of `src/server.js` are embedded as pure functions
`Store → request → Response × Store` (the reading endpoints return a
`Response` only), and `handleSaleSubmit` of `src/js/sales.js` as the function
from what it reads off the page to the body it posts.

* The SQLite database is the `Store`: one list of rows per table, in insertion
  order, and the `sqlite_sequence` counter of each `AUTOINCREMENT` key.
* Request bodies are records of optional fields (`none` is a field absent from
  the JSON body), each at the type of the column it is written to, as the pages
  under `js/` send them.  In the server and the store numbers are exact
  rationals: the rounding of the doubles in `item.current_stock - quantity` and
  in the `SUM` of the engine, and the coercions JavaScript applies to a field
  of another type, are not modelled, and the theorems on stock and amounts hold
  of the exact values.  The sale form is the exception: its product
  `quantity * price` is the product of IEEE 754 doubles, rounding and overflow
  included.  The `:id` of a path is the row key it denotes.
* `CURRENT_TIMESTAMP` is the argument `now` (seconds).
* Every statement handed to the engine may fail: the handler receives, for each
  of its statements, `none` (the engine runs it) or `some m` (the callback gets
  an `err` whose `message` is `m`).
-/

namespace RationStore

/-! ## Rows and store -/

/-- Row of table `families` (server.js:35-47). -/
structure Family where
  id : Nat
  family_id : String
  head_of_family : String
  num_members : Int
  member_list : List String
  address : String
  phone : String
  aadhaar : Option String
  card_type : Option String
  created_at : Nat
  updated_at : Nat
deriving DecidableEq, Repr

/-- Row of table `stock_items` (server.js:50-59). -/
structure StockItem where
  id : Nat
  item_name : String
  category : String
  total_stock : ℚ
  current_stock : ℚ
  threshold : ℚ
  created_at : Nat
  updated_at : Nat
deriving DecidableEq, Repr

/-- Row of table `sales` (server.js:62-72).  The foreign key on `item_id` is
declared but SQLite does not enforce it unless `PRAGMA foreign_keys` is turned
on, which the server never does. -/
structure Sale where
  id : Nat
  family_id : String
  item_id : Nat
  item_name : String
  quantity : ℚ
  unit_price : ℚ
  total_amount : ℚ
  sale_date : Nat
deriving DecidableEq, Repr

/-- The database: the three tables and the `sqlite_sequence` value of each. -/
structure Store where
  families : List Family
  stock_items : List StockItem
  sales : List Sale
  seq_families : Nat
  seq_stock_items : Nat
  seq_sales : Nat
deriving DecidableEq, Repr

/-- The database right after `initializeDatabase` on a fresh file. -/
def Store.empty : Store :=
  { families := [], stock_items := [], sales := [],
    seq_families := 0, seq_stock_items := 0, seq_sales := 0 }

/-- Key given to a new row of an `AUTOINCREMENT` table: one more than the
largest key the table has ever held. -/
def freshId (ids : List Nat) (seq : Nat) : Nat :=
  max seq (ids.foldr max 0) + 1

/-! ## Responses -/

/-- The `error` strings the server sends.
* `allFieldsRequired`: 'All fields are required'
* `stockExceedsTotal`: 'Current stock cannot be greater than total stock'
* `stockItemNotFound`: 'Stock item not found'
* `familyNotFound`: 'Family not found'
* `familyIdExists`: 'Family ID already exists'
* `insufficientStock a`: the template 'Insufficient stock. Available: ' followed by `a`
* `errorUpdatingStock`: 'Error updating stock'
* `engine m`: `err.message`, the text of the storage engine, passed on as it is -/
inductive ErrorMsg where
  | allFieldsRequired
  | stockExceedsTotal
  | stockItemNotFound
  | familyNotFound
  | familyIdExists
  | insufficientStock (available : ℚ)
  | errorUpdatingStock
  | engine (text : String)
deriving DecidableEq, Repr

/-- JSON bodies of the responses.  A body that renders table rows (`familyRow`,
`stockRow` and the three lists) holds the rows; the handler renames their
columns and prints the ids as strings. -/
inductive Body where
  | error (msg : ErrorMsg)
  | sale (id : Nat) (familyId : String) (itemId : Nat) (itemName : String)
      (quantity unitPrice totalAmount : ℚ)
  | stockItem (id : Nat) (itemName category : String)
      (totalStock currentStock threshold : ℚ)
  | family (id : Nat) (familyId headOfFamily : String) (numMembers : Int)
      (memberList : List String) (address phone : String)
      (aadhaar cardType : Option String)
  | message (text : String) (id : Option Nat)
  | stats (totalStockItems registeredFamilies lowStockItems : Nat) (todaySalesAmount : ℚ)
      (todaySalesCount : Nat)
  | todaySales (todaySalesAmount : ℚ) (todaySalesCount : Nat)
  | familyRow (row : Family)
  | stockRow (row : StockItem)
  | familyRows (rows : List Family)
  | stockRows (rows : List StockItem)
  | saleRows (rows : List Sale)
deriving DecidableEq, Repr

/-- What `res.status(..).json(..)` sends. -/
structure Response where
  status : Nat
  body : Body
deriving DecidableEq, Repr

/-! ## Sales -/

/-- Body of `POST /api/sales`, as destructured at server.js:418. -/
structure SaleRequest where
  familyId : Option String
  itemId : Option Nat
  quantity : Option ℚ
  unitPrice : Option ℚ
  totalAmount : Option ℚ
deriving DecidableEq, Repr

/-- Engine failures of the four statements of `POST /api/sales`, in the order
the handler issues them. -/
structure SaleFaults where
  getItem : Option String
  getFamily : Option String
  insertSale : Option String
  updateStock : Option String
deriving DecidableEq, Repr

/-- No statement fails. -/
def SaleFaults.ok : SaleFaults :=
  { getItem := none, getFamily := none, insertSale := none, updateStock := none }

/-- Statement `SELECT * FROM stock_items WHERE id = ?` through `db.get`: the first row. -/
def getStockItem (db : Store) (id : Nat) : Option StockItem :=
  db.stock_items.find? (fun r => r.id = id)

/-- Statement `SELECT * FROM families WHERE family_id = ?` through `db.get`. -/
def getFamilyByFamilyId (db : Store) (familyId : String) : Option Family :=
  db.families.find? (fun r => r.family_id = familyId)

/-- Statement `INSERT INTO sales (family_id, item_id, item_name, quantity, unit_price,
total_amount) VALUES (..)`; `sale_date` takes its default.  Returns `this.lastID`. -/
def insertSale (db : Store) (now : Nat) (familyId : String) (itemId : Nat)
    (itemName : String) (quantity unitPrice totalAmount : ℚ) : Nat × Store :=
  let lastID := freshId (db.sales.map (fun s => s.id)) db.seq_sales
  (lastID,
   { db with
     sales := db.sales ++
       [{ id := lastID, family_id := familyId, item_id := itemId, item_name := itemName,
          quantity := quantity, unit_price := unitPrice, total_amount := totalAmount,
          sale_date := now }],
     seq_sales := lastID })

/-- Statement `UPDATE stock_items SET current_stock = ?, updated_at = CURRENT_TIMESTAMP
WHERE id = ?`. -/
def updateCurrentStock (db : Store) (now : Nat) (newStock : ℚ) (itemId : Nat) : Store :=
  { db with
    stock_items := db.stock_items.map (fun r =>
      if r.id = itemId then { r with current_stock := newStock, updated_at := now } else r) }

/-- Handler `app.post('/api/sales', ..)` (server.js:417-488). -/
def recordSale (db : Store) (now : Nat) (fl : SaleFaults) (req : SaleRequest) :
    Response × Store :=
  match req.familyId, req.itemId, req.quantity, req.unitPrice, req.totalAmount with
  | some familyId, some itemId, some quantity, some unitPrice, some totalAmount =>
    if familyId = "" ∨ itemId = 0 ∨ quantity = 0 ∨ unitPrice = 0 ∨ totalAmount = 0 then
      (⟨400, .error .allFieldsRequired⟩, db)
    else
      match fl.getItem with
      | some m => (⟨500, .error (.engine m)⟩, db)
      | none =>
        match getStockItem db itemId with
        | none => (⟨404, .error .stockItemNotFound⟩, db)
        | some item =>
          if quantity > item.current_stock then
            (⟨400, .error (.insufficientStock item.current_stock)⟩, db)
          else
            match fl.getFamily with
            | some m => (⟨500, .error (.engine m)⟩, db)
            | none =>
              match getFamilyByFamilyId db familyId with
              | none => (⟨404, .error .familyNotFound⟩, db)
              | some _ =>
                match fl.insertSale with
                | some m => (⟨500, .error (.engine m)⟩, db)
                | none =>
                  let (lastID, db1) :=
                    insertSale db now familyId itemId item.item_name quantity unitPrice totalAmount
                  let newStock := item.current_stock - quantity
                  match fl.updateStock with
                  | some _ => (⟨500, .error .errorUpdatingStock⟩, db1)
                  | none =>
                    (⟨201, .sale lastID familyId itemId item.item_name quantity unitPrice
                        totalAmount⟩,
                     updateCurrentStock db1 now newStock itemId)
  | _, _, _, _, _ => (⟨400, .error .allFieldsRequired⟩, db)

/-! ## Stock items -/

/-- Body of `POST /api/stock` and `PUT /api/stock/:id` (server.js:292, 327). -/
structure StockRequest where
  itemName : Option String
  category : Option String
  totalStock : Option ℚ
  currentStock : Option ℚ
  threshold : Option ℚ
deriving DecidableEq, Repr

/-- Handler `app.post('/api/stock', ..)` (server.js:291-322); `fault` is the
outcome of its `INSERT`. -/
def createStock (db : Store) (now : Nat) (fault : Option String) (req : StockRequest) :
    Response × Store :=
  match req.itemName, req.category, req.totalStock, req.currentStock, req.threshold with
  | some itemName, some category, some totalStock, some currentStock, some threshold =>
    if itemName = "" ∨ category = "" then
      (⟨400, .error .allFieldsRequired⟩, db)
    else if currentStock > totalStock then
      (⟨400, .error .stockExceedsTotal⟩, db)
    else
      match fault with
      | some m => (⟨500, .error (.engine m)⟩, db)
      | none =>
        let lastID := freshId (db.stock_items.map (fun r => r.id)) db.seq_stock_items
        (⟨201, .stockItem lastID itemName category totalStock currentStock threshold⟩,
         { db with
           stock_items := db.stock_items ++
             [{ id := lastID, item_name := itemName, category := category,
                total_stock := totalStock, current_stock := currentStock,
                threshold := threshold, created_at := now, updated_at := now }],
           seq_stock_items := lastID })
  | _, _, _, _, _ => (⟨400, .error .allFieldsRequired⟩, db)

/-- Handler `app.put('/api/stock/:id', ..)` (server.js:325-354); `fault` is the
outcome of its `UPDATE`. -/
def updateStock (db : Store) (now : Nat) (fault : Option String) (id : Nat)
    (req : StockRequest) : Response × Store :=
  match req.itemName, req.category, req.totalStock, req.currentStock, req.threshold with
  | some itemName, some category, some totalStock, some currentStock, some threshold =>
    if itemName = "" ∨ category = "" then
      (⟨400, .error .allFieldsRequired⟩, db)
    else if currentStock > totalStock then
      (⟨400, .error .stockExceedsTotal⟩, db)
    else
      match fault with
      | some m => (⟨500, .error (.engine m)⟩, db)
      | none =>
        if (db.stock_items.filter (fun r => r.id = id)).length = 0 then
          (⟨404, .error .stockItemNotFound⟩, db)
        else
          (⟨200, .message "Stock item updated successfully" (some id)⟩,
           { db with
             stock_items := db.stock_items.map (fun r =>
               if r.id = id then
                 { r with item_name := itemName, category := category,
                          total_stock := totalStock, current_stock := currentStock,
                          threshold := threshold, updated_at := now }
               else r) })
  | _, _, _, _, _ => (⟨400, .error .allFieldsRequired⟩, db)

/-- Handler `app.delete('/api/stock/:id', ..)` (server.js:357-370). -/
def deleteStock (db : Store) (fault : Option String) (id : Nat) : Response × Store :=
  match fault with
  | some m => (⟨500, .error (.engine m)⟩, db)
  | none =>
    if (db.stock_items.filter (fun r => r.id = id)).length = 0 then
      (⟨404, .error .stockItemNotFound⟩, db)
    else
      (⟨200, .message "Stock item deleted successfully" none⟩,
       { db with stock_items := db.stock_items.filter (fun r => ¬ r.id = id) })

/-! ## Families -/

/-- Body of `POST /api/families` and `PUT /api/families/:id` (server.js:162, 199). -/
structure FamilyRequest where
  familyId : Option String
  headOfFamily : Option String
  numMembers : Option Int
  memberList : Option (List String)
  address : Option String
  phone : Option String
  aadhaar : Option String
  cardType : Option String
deriving DecidableEq, Repr

/-- Method `String.prototype.includes`. -/
def includes (s sub : String) : Bool :=
  decide (sub.data <:+: s.data)

/-- Message of the error SQLite raises when a write would store a `family_id`
twice (`family_id TEXT UNIQUE NOT NULL`). -/
def uniqueViolation : String :=
  "SQLITE_CONSTRAINT: UNIQUE constraint failed: families.family_id"

/-- The `err` of the `INSERT INTO families`: an engine failure `fault`, or the
violation of `UNIQUE` when a row already holds `familyId`. -/
def insertFamilyError (db : Store) (fault : Option String) (familyId : String) :
    Option String :=
  match fault with
  | some m => some m
  | none =>
    if db.families.any (fun r => r.family_id = familyId) then some uniqueViolation
    else none

/-- The `err` of the `UPDATE families .. WHERE id = ?`: an engine failure
`fault`, or the violation of `UNIQUE` when a row is updated and another row
holds `familyId`. -/
def updateFamilyError (db : Store) (fault : Option String) (id : Nat) (familyId : String) :
    Option String :=
  match fault with
  | some m => some m
  | none =>
    if db.families.any (fun r => r.id = id) ∧
        db.families.any (fun r => ¬ r.id = id ∧ r.family_id = familyId) then
      some uniqueViolation
    else none

/-- Handler `app.post('/api/families', ..)` (server.js:161-194); `fault` is an
engine failure of its `INSERT` other than the uniqueness check. -/
def createFamily (db : Store) (now : Nat) (fault : Option String) (req : FamilyRequest) :
    Response × Store :=
  match req.familyId, req.headOfFamily, req.numMembers, req.memberList, req.address,
      req.phone with
  | some familyId, some headOfFamily, some numMembers, some memberList, some address,
      some phone =>
    if familyId = "" ∨ headOfFamily = "" ∨ numMembers = 0 ∨ address = "" ∨ phone = "" then
      (⟨400, .error .allFieldsRequired⟩, db)
    else
      match insertFamilyError db fault familyId with
      | some m =>
        if includes m "UNIQUE constraint failed" then
          (⟨400, .error .familyIdExists⟩, db)
        else
          (⟨500, .error (.engine m)⟩, db)
      | none =>
        let lastID := freshId (db.families.map (fun r => r.id)) db.seq_families
        (⟨201, .family lastID familyId headOfFamily numMembers memberList address phone
            req.aadhaar req.cardType⟩,
         { db with
           families := db.families ++
             [{ id := lastID, family_id := familyId, head_of_family := headOfFamily,
                num_members := numMembers, member_list := memberList, address := address,
                phone := phone, aadhaar := req.aadhaar, card_type := req.cardType,
                created_at := now, updated_at := now }],
           seq_families := lastID })
  | _, _, _, _, _, _ => (⟨400, .error .allFieldsRequired⟩, db)

/-- Handler `app.put('/api/families/:id', ..)` (server.js:197-225). -/
def updateFamily (db : Store) (now : Nat) (fault : Option String) (id : Nat)
    (req : FamilyRequest) : Response × Store :=
  match req.familyId, req.headOfFamily, req.numMembers, req.memberList, req.address,
      req.phone with
  | some familyId, some headOfFamily, some numMembers, some memberList, some address,
      some phone =>
    if familyId = "" ∨ headOfFamily = "" ∨ numMembers = 0 ∨ address = "" ∨ phone = "" then
      (⟨400, .error .allFieldsRequired⟩, db)
    else
      match updateFamilyError db fault id familyId with
      | some m =>
        if includes m "UNIQUE constraint failed" then
          (⟨400, .error .familyIdExists⟩, db)
        else
          (⟨500, .error (.engine m)⟩, db)
      | none =>
        if (db.families.filter (fun r => r.id = id)).length = 0 then
          (⟨404, .error .familyNotFound⟩, db)
        else
          (⟨200, .message "Family updated successfully" (some id)⟩,
           { db with
             families := db.families.map (fun r =>
               if r.id = id then
                 { r with family_id := familyId, head_of_family := headOfFamily,
                          num_members := numMembers, member_list := memberList,
                          address := address, phone := phone, aadhaar := req.aadhaar,
                          card_type := req.cardType, updated_at := now }
               else r) })
  | _, _, _, _, _, _ => (⟨400, .error .allFieldsRequired⟩, db)

/-- Handler `app.delete('/api/families/:id', ..)` (server.js:228-241). -/
def deleteFamily (db : Store) (fault : Option String) (id : Nat) : Response × Store :=
  match fault with
  | some m => (⟨500, .error (.engine m)⟩, db)
  | none =>
    if (db.families.filter (fun r => r.id = id)).length = 0 then
      (⟨404, .error .familyNotFound⟩, db)
    else
      (⟨200, .message "Family deleted successfully" none⟩,
       { db with families := db.families.filter (fun r => ¬ r.id = id) })

/-! ## Dashboard -/

/-- Engine failures of the four queries of `GET /api/dashboard/stats`, in the
order the handler issues them. -/
structure StatsFaults where
  countStock : Option String
  countFamilies : Option String
  countLowStock : Option String
  todaySales : Option String
deriving DecidableEq, Repr

/-- No query fails. -/
def StatsFaults.ok : StatsFaults :=
  { countStock := none, countFamilies := none, countLowStock := none, todaySales := none }

/-- Function `DATE(t)` of a timestamp in seconds: its calendar day. -/
def date (t : Nat) : Nat :=
  t / 86400

/-- The rows `WHERE current_stock <= threshold` selects. -/
def lowStock (db : Store) : List StockItem :=
  db.stock_items.filter (fun r => r.current_stock ≤ r.threshold)

/-- The rows `WHERE DATE(sale_date) = DATE('now')` selects. -/
def todaySales (db : Store) (now : Nat) : List Sale :=
  db.sales.filter (fun s => date s.sale_date = date now)

/-- Aggregate `COALESCE(SUM(total_amount), 0)` over the selected rows. -/
def sumTotalAmount (rows : List Sale) : ℚ :=
  (rows.map (fun s => s.total_amount)).sum

/-- Expression `x || 0` on a number `x`. -/
def orZero {α : Type} [Zero α] [DecidableEq α] (x : α) : α :=
  if x = 0 then 0 else x

/-- Handler `app.get('/api/dashboard/stats', ..)` (server.js:491-540). -/
def dashboardStats (db : Store) (now : Nat) (fl : StatsFaults) : Response :=
  match fl.countStock with
  | some m => ⟨500, .error (.engine m)⟩
  | none =>
    let totalStockItems := db.stock_items.length
    match fl.countFamilies with
    | some m => ⟨500, .error (.engine m)⟩
    | none =>
      let registeredFamilies := db.families.length
      match fl.countLowStock with
      | some m => ⟨500, .error (.engine m)⟩
      | none =>
        let lowStockItems := (lowStock db).length
        match fl.todaySales with
        | some m => ⟨500, .error (.engine m)⟩
        | none =>
          let todaySalesAmount := orZero (sumTotalAmount (todaySales db now))
          let todaySalesCount := orZero (todaySales db now).length
          ⟨200, .stats totalStockItems registeredFamilies lowStockItems todaySalesAmount
            todaySalesCount⟩

/-! ## Reading endpoints -/

/-- Handler `app.get('/api/sales/today', ..)` (server.js:395-414): the
aggregate query returns one row, `row[0]`. -/
def salesToday (db : Store) (now : Nat) (fault : Option String) : Response :=
  match fault with
  | some m => ⟨500, .error (.engine m)⟩
  | none =>
    ⟨200, .todaySales (orZero (sumTotalAmount (todaySales db now)))
      (orZero (todaySales db now).length)⟩

/-- Handler `app.get('/api/families/:id', ..)` (server.js:105-130). -/
def readFamily (db : Store) (fault : Option String) (id : Nat) : Response :=
  match fault with
  | some m => ⟨500, .error (.engine m)⟩
  | none =>
    match db.families.find? (fun r => r.id = id) with
    | none => ⟨404, .error .familyNotFound⟩
    | some row => ⟨200, .familyRow row⟩

/-- Handler `app.get('/api/families/by-family-id/:familyId', ..)`
(server.js:133-158). -/
def readFamilyByFamilyId (db : Store) (fault : Option String) (familyId : String) : Response :=
  match fault with
  | some m => ⟨500, .error (.engine m)⟩
  | none =>
    match getFamilyByFamilyId db familyId with
    | none => ⟨404, .error .familyNotFound⟩
    | some row => ⟨200, .familyRow row⟩

/-- Handler `app.get('/api/stock/:id', ..)` (server.js:266-288). -/
def readStock (db : Store) (fault : Option String) (id : Nat) : Response :=
  match fault with
  | some m => ⟨500, .error (.engine m)⟩
  | none =>
    match getStockItem db id with
    | none => ⟨404, .error .stockItemNotFound⟩
    | some row => ⟨200, .stockRow row⟩

/-- Handler `app.get('/api/families', ..)` (server.js:81-102): `ORDER BY
created_at DESC`, rows of one timestamp in table order. -/
def listFamilies (db : Store) (fault : Option String) : Response :=
  match fault with
  | some m => ⟨500, .error (.engine m)⟩
  | none =>
    ⟨200, .familyRows (db.families.mergeSort (fun a b => decide (b.created_at ≤ a.created_at)))⟩

/-- Handler `app.get('/api/stock', ..)` (server.js:245-263). -/
def listStock (db : Store) (fault : Option String) : Response :=
  match fault with
  | some m => ⟨500, .error (.engine m)⟩
  | none =>
    ⟨200, .stockRows
      (db.stock_items.mergeSort (fun a b => decide (b.created_at ≤ a.created_at)))⟩

/-- Handler `app.get('/api/sales', ..)` (server.js:374-392): `ORDER BY
sale_date DESC`. -/
def listSales (db : Store) (fault : Option String) : Response :=
  match fault with
  | some m => ⟨500, .error (.engine m)⟩
  | none =>
    ⟨200, .saleRows (db.sales.mergeSort (fun a b => decide (b.sale_date ≤ a.sale_date)))⟩

/-- The stock request passes the presence check and the bound check of
server.js:294-302 and 329-337. -/
def StockRequest.valid (req : StockRequest) : Prop :=
  ∃ itemName category totalStock currentStock threshold,
    req = ⟨some itemName, some category, some totalStock, some currentStock, some threshold⟩ ∧
    itemName ≠ "" ∧ category ≠ "" ∧ currentStock ≤ totalStock

/-! ## The sale form (js/sales.js)

The sale form computes with the numbers of JavaScript, IEEE 754 binary64
doubles: `parseFloat` yields one, and `quantity * price` (js/sales.js:132) is the
exact product rounded to the nearest double, ties to the even significand,
`Infinity` beyond the range.  A finite double is given by the rational it
denotes. -/

/-- Value of a JavaScript number: `NaN`, an infinity with its sign, or a finite
double, given by the rational it denotes.  The two zeros are one value here:
`-0 <= 0` holds as `0 <= 0` does, a product of positive doubles is never `-0`,
and `JSON.stringify` writes both as `0`. -/
inductive JSNumber where
  | nan
  | infinity (negative : Bool)
  | finite (x : ℚ)
deriving DecidableEq, Repr

/-- Integer nearest to `y`, the even one of the two when `y` lies half way
between them (roundTiesToEven of IEEE 754). -/
def roundTiesToEven (y : ℚ) : ℤ :=
  if y - ⌊y⌋ < 1 / 2 then ⌊y⌋
  else if 1 / 2 < y - ⌊y⌋ then ⌊y⌋ + 1
  else if ⌊y⌋ % 2 = 0 then ⌊y⌋ else ⌊y⌋ + 1

/-- Exponent of binary64 at `x`: `⌊log₂ |x|⌋`, and the least normal exponent
-1022 below it (the subnormal doubles share that exponent). -/
def exponent (x : ℚ) : ℤ := max (Int.log 2 |x|) (-1022)

/-- Unit in the last place at `x`: the spacing of the doubles of exponent
`exponent x`, whose significand has 52 fraction bits. -/
def ulp (x : ℚ) : ℚ := 2 ^ (exponent x - 52)

/-- Double that an arithmetic operation of JavaScript returns when its exact
result is `x`: `x` rounded to a multiple of `ulp x`, ties to even, and an
infinity of the sign of `x` when that multiple reaches `2 ^ 1024`. -/
def toDouble (x : ℚ) : JSNumber :=
  let r := roundTiesToEven (x / ulp x) * ulp x
  if 2 ^ 1024 ≤ |r| then .infinity (decide (x < 0)) else .finite r

/-- Product `x * y` of JavaScript (`Number::multiply`): `NaN` when either is
`NaN` and for an infinity times zero, an infinity of the product of the signs
when either is infinite, and the rounded exact product of two finite doubles. -/
def JSNumber.mul : JSNumber → JSNumber → JSNumber
  | .nan, _ => .nan
  | _, .nan => .nan
  | .infinity s, .infinity t => .infinity (s != t)
  | .infinity s, .finite y => if y = 0 then .nan else .infinity (s != decide (y < 0))
  | .finite x, .infinity t => if x = 0 then .nan else .infinity (decide (x < 0) != t)
  | .finite x, .finite y => toDouble (x * y)

/-- Comparison `x <= 0` of JavaScript: false on `NaN`. -/
def JSNumber.leZero : JSNumber → Bool
  | .nan => false
  | .infinity negative => negative
  | .finite x => decide (x ≤ 0)

/-- Field that `JSON.stringify` writes for a number and `express.json()` reads
back: a finite double comes back as it is (it is written with the digits that
identify it), `NaN` and the infinities are written `null`, which the `!field`
tests of the server take as an absent field. -/
def JSNumber.toJSON : JSNumber → Option ℚ
  | .finite x => some x
  | _ => none

/-- What `handleSaleSubmit` reads from the page: the trimmed text of the family
field, the value of the item select (`none` when no item is selected), and the
results of `parseFloat` on the quantity and price fields. -/
structure SaleForm where
  familyId : String
  itemId : Option Nat
  quantity : JSNumber
  price : JSNumber
deriving DecidableEq, Repr

/-- Function `handleSaleSubmit` (js/sales.js:125-170) up to its call of
`salesAPI.create`: the body it posts, or `none` when it returns before the
call. -/
def handleSaleSubmit (form : SaleForm) : Option SaleRequest :=
  let total := form.quantity.mul form.price
  if form.quantity.leZero then none
  else if form.price.leZero then none
  else
    some { familyId := some form.familyId, itemId := form.itemId,
           quantity := form.quantity.toJSON, unitPrice := form.price.toJSON,
           totalAmount := total.toJSON }

/-! ## Sequences of requests -/

/-- One request to a writing endpoint, with the outcome of its statements. -/
inductive Op where
  | createFamily (fault : Option String) (req : FamilyRequest)
  | updateFamily (fault : Option String) (id : Nat) (req : FamilyRequest)
  | deleteFamily (fault : Option String) (id : Nat)
  | createStock (fault : Option String) (req : StockRequest)
  | updateStock (fault : Option String) (id : Nat) (req : StockRequest)
  | deleteStock (fault : Option String) (id : Nat)
  | recordSale (fl : SaleFaults) (req : SaleRequest)
deriving DecidableEq, Repr

/-- The server handles one request, received at time `now`, to completion. -/
def step (db : Store) (now : Nat) : Op → Response × Store
  | .createFamily fault req => createFamily db now fault req
  | .updateFamily fault id req => updateFamily db now fault id req
  | .deleteFamily fault id => deleteFamily db fault id
  | .createStock fault req => createStock db now fault req
  | .updateStock fault id req => updateStock db now fault id req
  | .deleteStock fault id => deleteStock db fault id
  | .recordSale fl req => recordSale db now fl req

/-- The store after a sequence of requests, each with its time of arrival. -/
def run (db : Store) : List (Nat × Op) → Store
  | [] => db
  | (now, op) :: rest => run (step db now op).2 rest

/-- The request, if it goes to a stock endpoint, carries no negative
`currentStock`. -/
def Op.stockNonneg : Op → Prop
  | .createStock _ req => ∀ c, req.currentStock = some c → 0 ≤ c
  | .updateStock _ _ req => ∀ c, req.currentStock = some c → 0 ≤ c
  | _ => True

/-- The keys of table `families` are kept: `id` is its primary key and
`family_id` is declared `UNIQUE`, so no two rows share either. -/
def Store.familyKeysUnique (db : Store) : Prop :=
  db.families.Pairwise (fun a b => a.id ≠ b.id ∧ a.family_id ≠ b.family_id)

/-- The family request passes the presence check of server.js:164 and 201. -/
def FamilyRequest.complete (req : FamilyRequest) : Prop :=
  ∃ familyId headOfFamily numMembers memberList address phone,
    req.familyId = some familyId ∧ req.headOfFamily = some headOfFamily ∧
    req.numMembers = some numMembers ∧ req.memberList = some memberList ∧
    req.address = some address ∧ req.phone = some phone ∧
    familyId ≠ "" ∧ headOfFamily ≠ "" ∧ numMembers ≠ 0 ∧ address ≠ "" ∧ phone ≠ ""

/-- The keys a sale names pass the presence check: no family has the empty
`family_id` and no stock item the id 0. -/
def Store.keysPresent (db : Store) : Prop :=
  (∀ f ∈ db.families, f.family_id ≠ "") ∧ (∀ r ∈ db.stock_items, r.id ≠ 0)

/-! ## Requests in flight

`sqlite3` runs a statement in the background and calls the handler back when
it is done; in between, the server may start or continue other requests.  A
handler of `POST /api/sales` is therefore suspended at each of its four store
calls, and each statement takes effect on the store as a whole. -/

/-- One `POST /api/sales` request: its body, its time and the outcome of each
of its statements. -/
structure SaleCall where
  now : Nat
  fl : SaleFaults
  req : SaleRequest
deriving DecidableEq, Repr

/-- The five fields of the body, once the presence check has passed. -/
structure SaleArgs where
  familyId : String
  itemId : Nat
  quantity : ℚ
  unitPrice : ℚ
  totalAmount : ℚ
deriving DecidableEq, Repr

/-- Where a handler of `POST /api/sales` stands: about to run its first
`SELECT`, waiting for one of the later statements with the row `item` it read
in its closure, or finished with a response. -/
inductive SaleTask where
  | start
  | awaitFamily (a : SaleArgs) (item : StockItem)
  | awaitInsert (a : SaleArgs) (item : StockItem)
  | awaitUpdate (a : SaleArgs) (item : StockItem) (lastID : Nat)
  | done (res : Response)
deriving DecidableEq, Repr

/-- The pending statement of the request runs on `db` and its callback runs up
to the next store call (server.js:417-488, one nesting level per case). -/
def SaleTask.step (c : SaleCall) (db : Store) : SaleTask → SaleTask × Store
  | .start =>
    match c.req.familyId, c.req.itemId, c.req.quantity, c.req.unitPrice, c.req.totalAmount with
    | some familyId, some itemId, some quantity, some unitPrice, some totalAmount =>
      if familyId = "" ∨ itemId = 0 ∨ quantity = 0 ∨ unitPrice = 0 ∨ totalAmount = 0 then
        (.done ⟨400, .error .allFieldsRequired⟩, db)
      else
        match c.fl.getItem with
        | some m => (.done ⟨500, .error (.engine m)⟩, db)
        | none =>
          match getStockItem db itemId with
          | none => (.done ⟨404, .error .stockItemNotFound⟩, db)
          | some item =>
            if quantity > item.current_stock then
              (.done ⟨400, .error (.insufficientStock item.current_stock)⟩, db)
            else
              (.awaitFamily ⟨familyId, itemId, quantity, unitPrice, totalAmount⟩ item, db)
    | _, _, _, _, _ => (.done ⟨400, .error .allFieldsRequired⟩, db)
  | .awaitFamily a item =>
    match c.fl.getFamily with
    | some m => (.done ⟨500, .error (.engine m)⟩, db)
    | none =>
      match getFamilyByFamilyId db a.familyId with
      | none => (.done ⟨404, .error .familyNotFound⟩, db)
      | some _ => (.awaitInsert a item, db)
  | .awaitInsert a item =>
    match c.fl.insertSale with
    | some m => (.done ⟨500, .error (.engine m)⟩, db)
    | none =>
      let (lastID, db1) :=
        insertSale db c.now a.familyId a.itemId item.item_name a.quantity a.unitPrice
          a.totalAmount
      (.awaitUpdate a item lastID, db1)
  | .awaitUpdate a item lastID =>
    let newStock := item.current_stock - a.quantity
    match c.fl.updateStock with
    | some _ => (.done ⟨500, .error .errorUpdatingStock⟩, db)
    | none =>
      (.done ⟨201, .sale lastID a.familyId a.itemId item.item_name a.quantity a.unitPrice
          a.totalAmount⟩,
       updateCurrentStock db c.now newStock a.itemId)
  | .done res => (.done res, db)

/-- The request runs `n` of its store calls in a row. -/
def SaleTask.steps (c : SaleCall) : Nat → SaleTask × Store → SaleTask × Store
  | 0, s => s
  | n + 1, s => SaleTask.steps c n (s.1.step c s.2)

/-- What a suspended handler knows of the row in its closure: the quantity
passed the sufficiency check against it. -/
def SaleTask.checked : SaleTask → Prop
  | .awaitFamily a item => a.quantity ≤ item.current_stock
  | .awaitInsert a item => a.quantity ≤ item.current_stock
  | .awaitUpdate a item _ => a.quantity ≤ item.current_stock
  | _ => True

/-- Two requests in flight over one store. -/
structure Race where
  db : Store
  t1 : SaleTask
  t2 : SaleTask
deriving DecidableEq, Repr

/-- The next store call to complete is that of the first request (`true`) or of
the second (`false`). -/
def Race.step (c1 c2 : SaleCall) (s : Race) (first : Bool) : Race :=
  if first then
    { s with t1 := (s.t1.step c1 s.db).1, db := (s.t1.step c1 s.db).2 }
  else
    { s with t2 := (s.t2.step c2 s.db).1, db := (s.t2.step c2 s.db).2 }

/-- The two requests arrive at `db` and their store calls complete in the order
`sched` gives. -/
def interleave (c1 c2 : SaleCall) (db : Store) (sched : List Bool) : Race :=
  sched.foldl (Race.step c1 c2) { db := db, t1 := .start, t2 := .start }

/-- The first request runs to its end before the second starts. -/
def serial : List Bool :=
  [true, true, true, true, false, false, false, false]

/-- The two requests take turns, store call by store call. -/
def alternating : List Bool :=
  [true, false, true, false, true, false, true, false]

/-! ## Sample data -/

/-- A stock item of capacity 100 and threshold 10 holding `current`. -/
def rice (current : ℚ) : StockItem :=
  { id := 1, item_name := "Rice", category := "Grains", total_stock := 100,
    current_stock := current, threshold := 10, created_at := 0, updated_at := 0 }

/-- A registered family with natural key `F001` and internal id 1. -/
def household : Family :=
  { id := 1, family_id := "F001", head_of_family := "Asha", num_members := 2,
    member_list := ["Asha", "Ravi"], address := "12 Market Road", phone := "5550100",
    aadhaar := none, card_type := none, created_at := 0, updated_at := 0 }

/-- A store with the one family and the one item, holding `current`. -/
def shop (current : ℚ) : Store :=
  { families := [household], stock_items := [rice current], sales := [],
    seq_families := 1, seq_stock_items := 1, seq_sales := 0 }

/-- A sale of `q` units of item 1 to family `F001` at 1 a unit. -/
def order (q : ℚ) : SaleRequest :=
  { familyId := some "F001", itemId := some 1, quantity := some q, unitPrice := some 1,
    totalAmount := some q }

/-- Body of a stock request for rice with threshold 10. -/
def riceRequest (total current : ℚ) : StockRequest :=
  { itemName := some "Rice", category := some "Grains", totalStock := some total,
    currentStock := some current, threshold := some 10 }

/-- Body of the family request that registers `household`. -/
def householdRequest : FamilyRequest :=
  { familyId := some "F001", headOfFamily := some "Asha", numMembers := some 2,
    memberList := some ["Asha", "Ravi"], address := some "12 Market Road",
    phone := some "5550100", aadhaar := none, cardType := none }

/-- A second family, with natural key `F002` and internal id 2. -/
def neighbours : Family :=
  { id := 2, family_id := "F002", head_of_family := "Meena", num_members := 1,
    member_list := ["Meena"], address := "14 Market Road", phone := "5550101",
    aadhaar := none, card_type := none, created_at := 0, updated_at := 0 }

/-- The store `shop current` with the second family registered as well. -/
def street (current : ℚ) : Store :=
  { shop current with families := [household, neighbours], seq_families := 2 }

/-- The sale of 20 units of rice to family `F001` at time 7. -/
def riceSale : Sale :=
  { id := 1, family_id := "F001", item_id := 1, item_name := "Rice", quantity := 20,
    unit_price := 1, total_amount := 20, sale_date := 7 }

/-- The store `shop 30` with `riceSale` on record. -/
def ledger : Store :=
  { shop 30 with sales := [riceSale], seq_sales := 1 }

/-! ## Theorems -/

/-! ### Lemmas on the store statements -/

theorem getStockItem_insertSale (db : Store) (now : Nat) (familyId : String) (itemId : Nat)
    (itemName : String) (quantity unitPrice totalAmount : ℚ) (id : Nat) :
    getStockItem (insertSale db now familyId itemId itemName quantity unitPrice totalAmount).2 id
      = getStockItem db id := rfl

theorem getStockItem_updateCurrentStock (db : Store) (now : Nat) (v : ℚ) (id : Nat) :
    getStockItem (updateCurrentStock db now v id) id
      = (getStockItem db id).map (fun r => { r with current_stock := v, updated_at := now }) := by
  simp only [getStockItem, updateCurrentStock]
  induction db.stock_items with
  | nil => rfl
  | cons r rs ih =>
    by_cases h : r.id = id
    · simp [List.find?, h]
    · simp [List.find?, h, ih]

/-- The run of `recordSale` that answers 201, in full. -/
theorem recordSale_success_inv (db : Store) (now : Nat) (fl : SaleFaults) (req : SaleRequest)
    (h : (recordSale db now fl req).1.status = 201) :
    ∃ familyId itemId quantity unitPrice totalAmount item fam,
      req = ⟨some familyId, some itemId, some quantity, some unitPrice, some totalAmount⟩ ∧
      familyId ≠ "" ∧ itemId ≠ 0 ∧ quantity ≠ 0 ∧ unitPrice ≠ 0 ∧ totalAmount ≠ 0 ∧
      getStockItem db itemId = some item ∧ quantity ≤ item.current_stock ∧
      getFamilyByFamilyId db familyId = some fam ∧
      recordSale db now fl req =
        (⟨201, .sale (insertSale db now familyId itemId item.item_name quantity unitPrice
                  totalAmount).1 familyId itemId item.item_name quantity unitPrice totalAmount⟩,
         updateCurrentStock
           (insertSale db now familyId itemId item.item_name quantity unitPrice totalAmount).2
           now (item.current_stock - quantity) itemId) := by
  obtain ⟨fid, iid, q, up, ta⟩ := req
  cases fid <;> cases iid <;> cases q <;> cases up <;> cases ta <;>
    simp only [recordSale] at h ⊢ <;> try (simp at h; done)
  rename_i familyId itemId quantity unitPrice totalAmount
  split at h
  · simp at h
  rename_i hv
  simp only [not_or] at hv
  obtain ⟨h1, h2, h3, h4, h5⟩ := hv
  split at h
  · simp at h
  rename_i hf1
  split at h
  · simp at h
  rename_i item hitem
  split at h
  · simp at h
  rename_i hq
  split at h
  · simp at h
  rename_i hf2
  split at h
  · simp at h
  rename_i fam hfam
  split at h
  · simp at h
  rename_i hf3
  split at h
  · simp at h
  rename_i hf4
  refine ⟨familyId, itemId, quantity, unitPrice, totalAmount, item, fam, rfl, h1, h2, h3, h4, h5,
    hitem, not_lt.mp hq, hfam, ?_⟩
  simp [h1, h2, h3, h4, h5, hf1, hitem, hq, hf2, hfam, hf3, hf4]

/-! ### The sale transaction -/

/-- C1: on every store and request on which `recordSale` succeeds (201), the
item found by `itemId` holds afterwards its `current_stock` before minus the
requested quantity, and the sales table is the old one followed by exactly one
row, which carries the request's familyId, itemId, quantity, unitPrice and
totalAmount and the `item_name` of the item found.  Numbers are the exact
rationals: the difference is the exact one, where the server stores the double
nearest to it. -/
theorem recordSale_success_effect (db : Store) (now : Nat) (fl : SaleFaults) (req : SaleRequest)
    (h : (recordSale db now fl req).1.status = 201) :
    ∃ familyId itemId quantity unitPrice totalAmount item saleId,
      req.familyId = some familyId ∧ req.itemId = some itemId ∧
      req.quantity = some quantity ∧ req.unitPrice = some unitPrice ∧
      req.totalAmount = some totalAmount ∧
      getStockItem db itemId = some item ∧
      (getStockItem (recordSale db now fl req).2 itemId).map (fun r => r.current_stock)
        = some (item.current_stock - quantity) ∧
      (recordSale db now fl req).2.sales = db.sales ++
        [{ id := saleId, family_id := familyId, item_id := itemId,
           item_name := item.item_name, quantity := quantity, unit_price := unitPrice,
           total_amount := totalAmount, sale_date := now }] := by
  obtain ⟨familyId, itemId, quantity, unitPrice, totalAmount, item, fam, hreq, -, -, -, -, -,
    hitem, -, -, heq⟩ := recordSale_success_inv db now fl req h
  refine ⟨familyId, itemId, quantity, unitPrice, totalAmount, item,
    (insertSale db now familyId itemId item.item_name quantity unitPrice totalAmount).1,
    by rw [hreq], by rw [hreq], by rw [hreq], by rw [hreq], by rw [hreq], hitem, ?_, ?_⟩
  · rw [heq]
    simp only [getStockItem_updateCurrentStock, getStockItem_insertSale, hitem, Option.map]
  · rw [heq]
    rfl

/-- Instance of C1: selling 20 of the 50 units in `shop 50`. -/
theorem recordSale_success_effect_witness :
    (recordSale (shop 50) 7 SaleFaults.ok (order 20)).1.status = 201 ∧
    ∃ familyId itemId quantity unitPrice totalAmount item saleId,
      (order 20).familyId = some familyId ∧ (order 20).itemId = some itemId ∧
      (order 20).quantity = some quantity ∧ (order 20).unitPrice = some unitPrice ∧
      (order 20).totalAmount = some totalAmount ∧
      getStockItem (shop 50) itemId = some item ∧
      (getStockItem (recordSale (shop 50) 7 SaleFaults.ok (order 20)).2 itemId).map
          (fun r => r.current_stock) = some (item.current_stock - quantity) ∧
      (recordSale (shop 50) 7 SaleFaults.ok (order 20)).2.sales = (shop 50).sales ++
        [{ id := saleId, family_id := familyId, item_id := itemId,
           item_name := item.item_name, quantity := quantity, unit_price := unitPrice,
           total_amount := totalAmount, sale_date := 7 }] :=
  ⟨by decide, recordSale_success_effect (shop 50) 7 SaleFaults.ok (order 20) (by decide)⟩

/-- C2, as stated, fails: when the `UPDATE` reports an error after the `INSERT`
went through, the handler answers 500 'Error updating stock', the sale is in
the table and no `current_stock` has changed. -/
theorem recordSale_sale_without_decrement :
    recordSale (shop 50) 7 { SaleFaults.ok with updateStock := some "database is locked" }
        (order 20) =
      (⟨500, .error .errorUpdatingStock⟩,
       { shop 50 with
         sales := [{ id := 1, family_id := "F001", item_id := 1, item_name := "Rice",
                     quantity := 20, unit_price := 1, total_amount := 20, sale_date := 7 }],
         seq_sales := 1 }) := by
  simp [recordSale, shop, order, SaleFaults.ok, getStockItem, getFamilyByFamilyId, rice,
    household, insertSale, freshId]
  norm_num

/-- C2, amended: every outcome of `recordSale` is one of three.  Either the
store is unchanged and the request failed; or the request succeeded, one sale
was appended and the item's `current_stock` was decremented by the quantity; or
the `UPDATE` failed after the `INSERT`, the answer is 500 'Error updating
stock', the sale was appended and the stock table is unchanged.  So the sale
and the decrement go together in every outcome in which the `UPDATE` does not
fail.  Numbers are the exact rationals: the decrement is the exact difference,
where the server stores the double nearest to it. -/
theorem recordSale_outcomes (db : Store) (now : Nat) (fl : SaleFaults) (req : SaleRequest) :
    ((recordSale db now fl req).2 = db ∧ (recordSale db now fl req).1.status ≠ 201) ∨
    (∃ familyId itemId quantity unitPrice totalAmount item saleId,
      req = ⟨some familyId, some itemId, some quantity, some unitPrice, some totalAmount⟩ ∧
      getStockItem db itemId = some item ∧
      (recordSale db now fl req).2.sales = db.sales ++
        [{ id := saleId, family_id := familyId, item_id := itemId,
           item_name := item.item_name, quantity := quantity, unit_price := unitPrice,
           total_amount := totalAmount, sale_date := now }] ∧
      ((fl.updateStock = none ∧ (recordSale db now fl req).1.status = 201 ∧
        (recordSale db now fl req).2.stock_items = db.stock_items.map (fun r =>
          if r.id = itemId then
            { r with current_stock := item.current_stock - quantity, updated_at := now }
          else r)) ∨
       (fl.updateStock ≠ none ∧
        (recordSale db now fl req).1 = ⟨500, .error .errorUpdatingStock⟩ ∧
        (recordSale db now fl req).2.stock_items = db.stock_items))) := by
  obtain ⟨fid, iid, q, up, ta⟩ := req
  cases fid <;> cases iid <;> cases q <;> cases up <;> cases ta <;>
    simp only [recordSale] <;> try (left; simp; done)
  rename_i familyId itemId quantity unitPrice totalAmount
  split
  · left; simp
  split
  · left; simp
  split
  · left; simp
  rename_i item hitem
  split
  · left; simp
  split
  · left; simp
  split
  · left; simp
  split
  · left; simp
  right
  refine ⟨familyId, itemId, quantity, unitPrice, totalAmount, item,
    (insertSale db now familyId itemId item.item_name quantity unitPrice totalAmount).1,
    rfl, hitem, ?_⟩
  split
  · rename_i m hm
    exact ⟨rfl, Or.inr ⟨by simp [hm], rfl, rfl⟩⟩
  · rename_i hm
    exact ⟨rfl, Or.inl ⟨hm, rfl, rfl⟩⟩

/-! ### Stock bounds over sequences of requests -/

theorem createFamily_stock_items (db : Store) (now : Nat) (fault : Option String)
    (req : FamilyRequest) : (createFamily db now fault req).2.stock_items = db.stock_items := by
  unfold createFamily
  repeat' split
  all_goals rfl

theorem updateFamily_stock_items (db : Store) (now : Nat) (fault : Option String) (id : Nat)
    (req : FamilyRequest) :
    (updateFamily db now fault id req).2.stock_items = db.stock_items := by
  unfold updateFamily
  repeat' split
  all_goals rfl

theorem deleteFamily_stock_items (db : Store) (fault : Option String) (id : Nat) :
    (deleteFamily db fault id).2.stock_items = db.stock_items := by
  unfold deleteFamily
  repeat' split
  all_goals rfl

/-- A `recordSale` that does not answer 201 leaves the stock table as it was. -/
theorem recordSale_stock_items_of_failure (db : Store) (now : Nat) (fl : SaleFaults)
    (req : SaleRequest) (hs : (recordSale db now fl req).1.status ≠ 201) :
    (recordSale db now fl req).2.stock_items = db.stock_items := by
  obtain ⟨fid, iid, q, up, ta⟩ := req
  cases fid <;> cases iid <;> cases q <;> cases up <;> cases ta <;>
    simp only [recordSale] at hs ⊢
  repeat' split
  all_goals first | rfl | simp_all

/-- The stock table after `recordSale`: untouched, or the checked decrement. -/
theorem recordSale_stock_items (db : Store) (now : Nat) (fl : SaleFaults) (req : SaleRequest) :
    (recordSale db now fl req).2.stock_items = db.stock_items ∨
    ∃ itemId quantity item,
      req.itemId = some itemId ∧ req.quantity = some quantity ∧
      getStockItem db itemId = some item ∧ quantity ≤ item.current_stock ∧
      (recordSale db now fl req).2.stock_items = db.stock_items.map (fun r =>
        if r.id = itemId then
          { r with current_stock := item.current_stock - quantity, updated_at := now }
        else r) := by
  by_cases hs : (recordSale db now fl req).1.status = 201
  · obtain ⟨familyId, itemId, quantity, unitPrice, totalAmount, item, fam, hreq, -, -, -, -, -,
      hitem, hq, -, heq⟩ := recordSale_success_inv db now fl req hs
    right
    refine ⟨itemId, quantity, item, by rw [hreq], by rw [hreq], hitem, hq, ?_⟩
    rw [heq]
    rfl
  · exact Or.inl (recordSale_stock_items_of_failure db now fl req hs)

/-- One request keeps every `current_stock` non-negative, unless it writes a
negative one through a stock endpoint. -/
theorem step_stock_nonneg (db : Store) (now : Nat) (op : Op)
    (hdb : ∀ r ∈ db.stock_items, 0 ≤ r.current_stock) (hop : op.stockNonneg) :
    ∀ r ∈ (step db now op).2.stock_items, 0 ≤ r.current_stock := by
  cases op with
  | createFamily fault req => simpa only [step, createFamily_stock_items] using hdb
  | updateFamily fault id req => simpa only [step, updateFamily_stock_items] using hdb
  | deleteFamily fault id => simpa only [step, deleteFamily_stock_items] using hdb
  | createStock fault req =>
    obtain ⟨n, c, t, cs, th⟩ := req
    simp only [step, createStock]
    repeat' split
    all_goals try exact hdb
    intro r hr
    simp only [List.mem_append, List.mem_singleton] at hr
    rcases hr with hr | hr
    · exact hdb r hr
    · subst hr
      exact hop _ rfl
  | updateStock fault id req =>
    obtain ⟨n, c, t, cs, th⟩ := req
    simp only [step, updateStock]
    repeat' split
    all_goals try exact hdb
    intro r hr
    simp only [List.mem_map] at hr
    obtain ⟨r0, hr0, rfl⟩ := hr
    split
    · exact hop _ rfl
    · exact hdb r0 hr0
  | deleteStock fault id =>
    simp only [step, deleteStock]
    repeat' split
    all_goals try exact hdb
    intro r hr
    exact hdb r (List.mem_of_mem_filter hr)
  | recordSale fl req =>
    simp only [step]
    rcases recordSale_stock_items db now fl req with h | ⟨itemId, quantity, item, -, -, -, hq, h⟩
    · rw [h]; exact hdb
    · rw [h]
      intro r hr
      simp only [List.mem_map] at hr
      obtain ⟨r0, hr0, rfl⟩ := hr
      split
      · exact sub_nonneg.mpr hq
      · exact hdb r0 hr0

/-- C3, as stated, fails: one `POST /api/stock` with `currentStock = -5` and
`totalStock = 10` on the empty store is accepted and stores the negative
stock. -/
theorem negative_stock_reachable :
    (run Store.empty [(0, .createStock none (riceRequest 10 (-5)))]).stock_items =
      [{ id := 1, item_name := "Rice", category := "Grains", total_stock := 10,
         current_stock := -5, threshold := 10, created_at := 0, updated_at := 0 }] ∧
    ∃ r ∈ (run Store.empty [(0, .createStock none (riceRequest 10 (-5)))]).stock_items,
      r.current_stock < 0 := by
  have h : (run Store.empty [(0, .createStock none (riceRequest 10 (-5)))]).stock_items =
      [{ id := 1, item_name := "Rice", category := "Grains", total_stock := 10,
         current_stock := -5, threshold := 10, created_at := 0, updated_at := 0 }] := by
    simp [run, step, createStock, riceRequest, Store.empty, freshId]
    norm_num
  refine ⟨h, ?_⟩
  rw [h]
  exact ⟨_, List.mem_singleton.mpr rfl, by norm_num⟩

/-- C3, amended: in every state reached from the empty store by a sequence of
requests (stock and family create, update and delete, and `recordSale`, with
any store failures) whose stock create and update requests carry no negative
`currentStock`, no stock item has `current_stock < 0`. -/
theorem stock_nonneg_of_nonneg_writes (ops : List (Nat × Op))
    (h : ∀ p ∈ ops, p.2.stockNonneg) :
    ∀ r ∈ (run Store.empty ops).stock_items, 0 ≤ r.current_stock := by
  have key : ∀ (ops : List (Nat × Op)) (db : Store),
      (∀ p ∈ ops, p.2.stockNonneg) → (∀ r ∈ db.stock_items, 0 ≤ r.current_stock) →
      ∀ r ∈ (run db ops).stock_items, 0 ≤ r.current_stock := by
    intro ops
    induction ops with
    | nil => intro db _ hdb; exact hdb
    | cons p rest ih =>
      intro db hops hdb
      obtain ⟨now, op⟩ := p
      exact ih (step db now op).2 (fun q hq => hops q (List.mem_cons_of_mem _ hq))
        (step_stock_nonneg db now op hdb (hops (now, op) (List.mem_cons_self _ _)))
  exact key ops Store.empty h (fun r hr => absurd hr (List.not_mem_nil r))

/-- Instance of C3 amended: stocking 50 units, registering a family and selling
20 and then 30 units. -/
theorem stock_nonneg_of_nonneg_writes_witness :
    (run Store.empty
        [(0, .createStock none (riceRequest 100 50)), (1, .createFamily none householdRequest),
         (2, .recordSale SaleFaults.ok (order 20)),
         (3, .recordSale SaleFaults.ok (order 30))]).stock_items.all
      (fun r => decide (0 ≤ r.current_stock)) = true :=
  List.all_eq_true.mpr (fun r hr => decide_eq_true
    (stock_nonneg_of_nonneg_writes
      [(0, .createStock none (riceRequest 100 50)), (1, .createFamily none householdRequest),
       (2, .recordSale SaleFaults.ok (order 20)), (3, .recordSale SaleFaults.ok (order 30))]
      (by
        intro p hp
        simp only [List.mem_cons, List.mem_singleton, List.not_mem_nil, or_false] at hp
        rcases hp with rfl | rfl | rfl | rfl
        · intro c hc
          simp only [riceRequest, Option.some.injEq] at hc
          rw [← hc]; norm_num
        · trivial
        · trivial
        · trivial)
      r hr))

/-- C4: the code breaks the bound.  From the empty store, stocking 10 of a
capacity of 10, registering a family and then posting a sale of quantity -5:
the sale is accepted (201) and the item holds 15, above its `total_stock` 10. -/
theorem current_exceeds_total_after_negative_sale :
    (step (run Store.empty
        [(0, .createStock none (riceRequest 10 10)), (1, .createFamily none householdRequest)])
        2 (.recordSale SaleFaults.ok (order (-5)))).1.status = 201 ∧
    (run Store.empty
        [(0, .createStock none (riceRequest 10 10)), (1, .createFamily none householdRequest),
         (2, .recordSale SaleFaults.ok (order (-5)))]).stock_items =
      [{ id := 1, item_name := "Rice", category := "Grains", total_stock := 10,
         current_stock := 15, threshold := 10, created_at := 0, updated_at := 2 }] ∧
    ∃ r ∈ (run Store.empty
        [(0, .createStock none (riceRequest 10 10)), (1, .createFamily none householdRequest),
         (2, .recordSale SaleFaults.ok (order (-5)))]).stock_items,
      r.total_stock < r.current_stock := by
  have h : (run Store.empty
        [(0, .createStock none (riceRequest 10 10)), (1, .createFamily none householdRequest),
         (2, .recordSale SaleFaults.ok (order (-5)))]).stock_items =
      [{ id := 1, item_name := "Rice", category := "Grains", total_stock := 10,
         current_stock := 15, threshold := 10, created_at := 0, updated_at := 2 }] := by
    simp [run, step, createStock, createFamily, insertFamilyError, recordSale, riceRequest,
      householdRequest, order, Store.empty, SaleFaults.ok, getStockItem, getFamilyByFamilyId,
      insertSale, updateCurrentStock, freshId]
    norm_num
  refine ⟨?_, h, ?_⟩
  · simp [run, step, createStock, createFamily, insertFamilyError, recordSale, riceRequest,
      householdRequest, order, Store.empty, SaleFaults.ok, getStockItem, getFamilyByFamilyId,
      insertSale, updateCurrentStock, freshId]
    norm_num
  · rw [h]
    exact ⟨_, List.mem_singleton.mpr rfl, by norm_num⟩

/-! ### Failures of the sale transaction -/

/-- C5: when all five fields are present and non-zero, `itemId` names a stored
item and the quantity exceeds that item's `current_stock` (the item lookup
itself running), `recordSale` answers 400 with the insufficient-stock message
carrying the item's `current_stock`, and the store (sales, stock items,
families) is unchanged. -/
theorem recordSale_insufficient_stock (db : Store) (now : Nat) (fl : SaleFaults)
    (familyId : String) (itemId : Nat) (quantity unitPrice totalAmount : ℚ) (item : StockItem)
    (hf : familyId ≠ "") (hi : itemId ≠ 0) (hq : quantity ≠ 0) (hu : unitPrice ≠ 0)
    (ht : totalAmount ≠ 0) (hget : fl.getItem = none)
    (hitem : getStockItem db itemId = some item) (hgt : quantity > item.current_stock) :
    recordSale db now fl
        ⟨some familyId, some itemId, some quantity, some unitPrice, some totalAmount⟩ =
      (⟨400, .error (.insufficientStock item.current_stock)⟩, db) := by
  simp [recordSale, hf, hi, hq, hu, ht, hget, hitem, hgt]

/-- Instance of C5: asking for 40 of the 30 units in `shop 30`. -/
theorem recordSale_insufficient_stock_witness :
    recordSale (shop 30) 7 SaleFaults.ok (order 40) =
      (⟨400, .error (.insufficientStock 30)⟩, shop 30) :=
  recordSale_insufficient_stock (shop 30) 7 SaleFaults.ok "F001" 1 40 1 40 (rice 30)
    (by decide) (by decide) (by decide) (by decide) (by decide) rfl
    (by simp [getStockItem, shop, rice]) (by simp [rice]; norm_num)

/-- C6: when the request's `familyId` is the `family_id` of no stored family,
`recordSale` fails (400, 404 or 500), and the store is unchanged: no sale is
appended and no `current_stock` changes.  When the earlier checks pass (fields
present and non-zero, item found with enough stock, both lookups running) the
answer is 404 'Family not found'.  The internal `id` of the families plays no
part. -/
theorem recordSale_unknown_family (db : Store) (now : Nat) (fl : SaleFaults) (req : SaleRequest)
    (h : ∀ f ∈ db.families, req.familyId ≠ some f.family_id) :
    (recordSale db now fl req).2 = db ∧
    ((recordSale db now fl req).1.status = 400 ∨ (recordSale db now fl req).1.status = 404 ∨
      (recordSale db now fl req).1.status = 500) ∧
    (∀ familyId itemId quantity unitPrice totalAmount item,
      req = ⟨some familyId, some itemId, some quantity, some unitPrice, some totalAmount⟩ →
      familyId ≠ "" → itemId ≠ 0 → quantity ≠ 0 → unitPrice ≠ 0 → totalAmount ≠ 0 →
      fl.getItem = none → getStockItem db itemId = some item →
      quantity ≤ item.current_stock → fl.getFamily = none →
      (recordSale db now fl req).1 = ⟨404, .error .familyNotFound⟩) := by
  have hnone : ∀ familyId, req.familyId = some familyId →
      getFamilyByFamilyId db familyId = none := by
    intro familyId hfid
    simp only [getFamilyByFamilyId, List.find?_eq_none, decide_eq_true_eq]
    intro f hf heq
    exact h f hf (by rw [hfid, heq])
  obtain ⟨fid, iid, q, up, ta⟩ := req
  refine ⟨?_, ?_, ?_⟩
  · cases fid <;> cases iid <;> cases q <;> cases up <;> cases ta <;>
      simp only [recordSale]
    rename_i familyId itemId quantity unitPrice totalAmount
    have hfam := hnone familyId rfl
    repeat' split
    all_goals first | rfl | simp_all
  · cases fid <;> cases iid <;> cases q <;> cases up <;> cases ta <;>
      simp only [recordSale] <;> try (simp; done)
    rename_i familyId itemId quantity unitPrice totalAmount
    have hfam := hnone familyId rfl
    repeat' split
    all_goals first | (simp; done) | simp_all
  · intro familyId itemId quantity unitPrice totalAmount item hreq hf hi hq hu ht hget hitem hle
      hgf
    simp only [SaleRequest.mk.injEq] at hreq
    obtain ⟨rfl, rfl, rfl, rfl, rfl⟩ := hreq
    simp [recordSale, hf, hi, hq, hu, ht, hget, hitem, not_lt.mpr hle, hgf, hnone familyId rfl]

/-- A store whose one family has natural key `F001` and internal id 1, asked
for a sale to familyId `1`. -/
theorem recordSale_unknown_family_witness :
    (∀ f ∈ (shop 50).families, ({ order 20 with familyId := some "1" } : SaleRequest).familyId
        ≠ some f.family_id) ∧
    (recordSale (shop 50) 7 SaleFaults.ok { order 20 with familyId := some "1" }).2 = shop 50 ∧
    (recordSale (shop 50) 7 SaleFaults.ok { order 20 with familyId := some "1" }).1
      = ⟨404, .error .familyNotFound⟩ :=
  have hyp : ∀ f ∈ (shop 50).families,
      ({ order 20 with familyId := some "1" } : SaleRequest).familyId ≠ some f.family_id := by
    intro f hf
    simp only [shop, List.mem_singleton] at hf
    subst hf
    decide
  ⟨hyp,
   (recordSale_unknown_family (shop 50) 7 SaleFaults.ok _ hyp).1,
   (recordSale_unknown_family (shop 50) 7 SaleFaults.ok _ hyp).2.2 "1" 1 20 1 20 (rice 50)
     rfl (by decide) (by decide) (by decide) (by decide) (by decide) rfl
     (by simp [getStockItem, shop, rice]) (by simp [rice]; norm_num) rfl⟩

/-- C7: when one of familyId, itemId, quantity, unitPrice, totalAmount is absent,
zero or the empty string, `recordSale` answers 400 'All fields are required'
on every store and whatever the engine would do with a statement: the answer
does not depend on the store, and the store is returned as it was. -/
theorem recordSale_missing_field (db : Store) (now : Nat) (fl : SaleFaults) (req : SaleRequest)
    (h : req.familyId = none ∨ req.familyId = some "" ∨
         req.itemId = none ∨ req.itemId = some 0 ∨
         req.quantity = none ∨ req.quantity = some 0 ∨
         req.unitPrice = none ∨ req.unitPrice = some 0 ∨
         req.totalAmount = none ∨ req.totalAmount = some 0) :
    recordSale db now fl req = (⟨400, .error .allFieldsRequired⟩, db) := by
  obtain ⟨fid, iid, q, up, ta⟩ := req
  cases fid <;> cases iid <;> cases q <;> cases up <;> cases ta <;>
    simp only [recordSale]
  simp at h
  rw [if_pos]
  rcases h with h | h | h | h | h
  · exact Or.inl h
  · exact Or.inr (Or.inl h)
  · exact Or.inr (Or.inr (Or.inl h))
  · exact Or.inr (Or.inr (Or.inr (Or.inl h)))
  · exact Or.inr (Or.inr (Or.inr (Or.inr h)))

/-- Instance of C7: a sale of quantity 0, with the item lookup set to fail. -/
theorem recordSale_missing_field_witness :
    recordSale (shop 50) 7 { SaleFaults.ok with getItem := some "disk I/O error" } (order 0) =
      (⟨400, .error .allFieldsRequired⟩, shop 50) :=
  recordSale_missing_field (shop 50) 7 _ (order 0)
    (Or.inr (Or.inr (Or.inr (Or.inr (Or.inr (Or.inl rfl))))))

/-- C8: when the five fields are present and non-zero and no stored stock item
has the id `itemId` (the lookup itself running), `recordSale` answers 404
'Stock item not found' and the store is unchanged. -/
theorem recordSale_item_not_found (db : Store) (now : Nat) (fl : SaleFaults)
    (familyId : String) (itemId : Nat) (quantity unitPrice totalAmount : ℚ)
    (hf : familyId ≠ "") (hi : itemId ≠ 0) (hq : quantity ≠ 0) (hu : unitPrice ≠ 0)
    (ht : totalAmount ≠ 0) (hget : fl.getItem = none)
    (hno : ∀ r ∈ db.stock_items, r.id ≠ itemId) :
    recordSale db now fl
        ⟨some familyId, some itemId, some quantity, some unitPrice, some totalAmount⟩ =
      (⟨404, .error .stockItemNotFound⟩, db) := by
  have hnone : getStockItem db itemId = none := by
    simp only [getStockItem, List.find?_eq_none, decide_eq_true_eq]
    exact hno
  simp [recordSale, hf, hi, hq, hu, ht, hget, hnone]

/-- Instance of C8: a sale of item 2 in a store whose only item has id 1. -/
theorem recordSale_item_not_found_witness :
    recordSale (shop 50) 7 SaleFaults.ok { order 20 with itemId := some 2 } =
      (⟨404, .error .stockItemNotFound⟩, shop 50) :=
  recordSale_item_not_found (shop 50) 7 SaleFaults.ok "F001" 2 20 1 20
    (by decide) (by decide) (by decide) (by decide) (by decide) rfl
    (by
      intro r hr
      simp only [shop, List.mem_singleton] at hr
      subst hr
      decide)

/-! ### Two sales in flight -/

/-- Run to its end, a request in flight is the handler `recordSale`. -/
theorem SaleTask.steps_start (c : SaleCall) (db : Store) :
    SaleTask.steps c 4 (.start, db) =
      (.done (recordSale db c.now c.fl c.req).1, (recordSale db c.now c.fl c.req).2) := by
  obtain ⟨now, ⟨gi, gf, ins, upd⟩, fid, iid, q, up, ta⟩ := c
  cases fid <;> cases iid <;> cases q <;> cases up <;> cases ta <;>
    try (simp only [SaleTask.steps, SaleTask.step, recordSale]; done)
  rename_i familyId itemId quantity unitPrice totalAmount
  by_cases hv : familyId = "" ∨ itemId = 0 ∨ quantity = 0 ∨ unitPrice = 0 ∨ totalAmount = 0
  · simp only [SaleTask.steps, SaleTask.step, recordSale, hv, if_true]
  cases gi with
  | some m => simp only [SaleTask.steps, SaleTask.step, recordSale, hv, if_false]
  | none =>
  cases hitem : getStockItem db itemId with
  | none => simp only [SaleTask.steps, SaleTask.step, recordSale, hv, if_false, hitem]
  | some item =>
  by_cases hq : quantity > item.current_stock
  · simp only [SaleTask.steps, SaleTask.step, recordSale, hv, if_false, hitem, hq, if_true]
  cases gf with
  | some m => simp only [SaleTask.steps, SaleTask.step, recordSale, hv, if_false, hitem, hq]
  | none =>
  cases hfam : getFamilyByFamilyId db familyId with
  | none => simp only [SaleTask.steps, SaleTask.step, recordSale, hv, if_false, hitem, hq, hfam]
  | some fam =>
  cases ins with
  | some m => simp only [SaleTask.steps, SaleTask.step, recordSale, hv, if_false, hitem, hq, hfam]
  | none =>
  cases upd with
  | some m => simp only [SaleTask.steps, SaleTask.step, recordSale, hv, if_false, hitem, hq, hfam]
  | none => simp only [SaleTask.steps, SaleTask.step, recordSale, hv, if_false, hitem, hq, hfam]

theorem foldl_step_first (c1 c2 : SaleCall) (n : Nat) (s : Race) :
    (List.replicate n true).foldl (Race.step c1 c2) s =
      { db := (SaleTask.steps c1 n (s.t1, s.db)).2, t1 := (SaleTask.steps c1 n (s.t1, s.db)).1,
        t2 := s.t2 } := by
  induction n generalizing s with
  | zero => rfl
  | succ n ih => simp only [List.replicate, List.foldl, ih, Race.step, SaleTask.steps, if_true]

theorem foldl_step_second (c1 c2 : SaleCall) (n : Nat) (s : Race) :
    (List.replicate n false).foldl (Race.step c1 c2) s =
      { db := (SaleTask.steps c2 n (s.t2, s.db)).2, t1 := s.t1,
        t2 := (SaleTask.steps c2 n (s.t2, s.db)).1 } := by
  induction n generalizing s with
  | zero => rfl
  | succ n ih =>
    simp only [List.replicate, List.foldl, ih, Race.step, SaleTask.steps, Bool.false_eq_true,
      if_false]

/-- With the schedule `serial` the two requests are two calls of the handler,
the second on the store the first left. -/
theorem interleave_serial (c1 c2 : SaleCall) (db : Store) :
    interleave c1 c2 db serial =
      { db := (recordSale (recordSale db c1.now c1.fl c1.req).2 c2.now c2.fl c2.req).2,
        t1 := .done (recordSale db c1.now c1.fl c1.req).1,
        t2 := .done (recordSale (recordSale db c1.now c1.fl c1.req).2 c2.now c2.fl c2.req).1 } := by
  have h : serial = List.replicate 4 true ++ List.replicate 4 false := rfl
  rw [interleave, h, List.foldl_append, foldl_step_first, foldl_step_second]
  simp only [SaleTask.steps_start]

/-- One store call of a request in flight keeps every `current_stock`
non-negative and keeps the request's knowledge of its row. -/
theorem SaleTask.step_nonneg (c : SaleCall) (db : Store) (t : SaleTask)
    (hdb : ∀ r ∈ db.stock_items, 0 ≤ r.current_stock) (ht : t.checked) :
    (∀ r ∈ (t.step c db).2.stock_items, 0 ≤ r.current_stock) ∧ (t.step c db).1.checked := by
  cases t with
  | start =>
    simp only [SaleTask.step]
    repeat' split
    all_goals first
      | exact ⟨hdb, trivial⟩
      | exact ⟨hdb, not_lt.mp (by assumption)⟩
  | awaitFamily a item =>
    simp only [SaleTask.step]
    repeat' split
    all_goals first
      | exact ⟨hdb, trivial⟩
      | exact ⟨hdb, ht⟩
  | awaitInsert a item =>
    simp only [SaleTask.step]
    repeat' split
    all_goals first
      | exact ⟨hdb, trivial⟩
      | exact ⟨hdb, ht⟩
  | awaitUpdate a item lastID =>
    simp only [SaleTask.step]
    split
    · exact ⟨hdb, trivial⟩
    · refine ⟨?_, trivial⟩
      intro r hr
      simp only [updateCurrentStock, List.mem_map] at hr
      obtain ⟨r0, hr0, rfl⟩ := hr
      split
      · exact sub_nonneg.mpr ht
      · exact hdb r0 hr0
  | done res => exact ⟨hdb, trivial⟩

/-- In every interleaving of two sales, started on a store without negative
stock, no `current_stock` is negative. -/
theorem interleave_stock_nonneg (c1 c2 : SaleCall) (db : Store)
    (hdb : ∀ r ∈ db.stock_items, 0 ≤ r.current_stock) (sched : List Bool) :
    ∀ r ∈ (interleave c1 c2 db sched).db.stock_items, 0 ≤ r.current_stock := by
  have key : ∀ (sched : List Bool) (s : Race),
      (∀ r ∈ s.db.stock_items, 0 ≤ r.current_stock) → s.t1.checked → s.t2.checked →
      ∀ r ∈ (sched.foldl (Race.step c1 c2) s).db.stock_items, 0 ≤ r.current_stock := by
    intro sched
    induction sched with
    | nil => intro s hs _ _; exact hs
    | cons b rest ih =>
      intro s hs h1 h2
      simp only [List.foldl]
      cases b with
      | true =>
        have h := SaleTask.step_nonneg c1 s.db s.t1 hs h1
        exact ih _ (by simpa only [Race.step, if_true] using h.1)
          (by simpa only [Race.step, if_true] using h.2)
          (by simpa only [Race.step, if_true] using h2)
      | false =>
        have h := SaleTask.step_nonneg c2 s.db s.t2 hs h2
        exact ih _ (by simpa only [Race.step, Bool.false_eq_true, if_false] using h.1)
          (by simpa only [Race.step, Bool.false_eq_true, if_false] using h1)
          (by simpa only [Race.step, Bool.false_eq_true, if_false] using h.2)
  exact key sched _ hdb trivial trivial

/-- C9, as stated, fails: two sales of 20 against an item holding 30 (the sum
40 exceeds 30), with their store calls alternating, both read 30, both pass
the check and both are answered 201; the item is left holding 10.  And two
sales of 40 and 50 against the same item both fail, even one after the other. -/
theorem both_sales_succeed_when_interleaved :
    interleave ⟨7, SaleFaults.ok, order 20⟩ ⟨8, SaleFaults.ok, order 20⟩ (shop 30) alternating =
      { db :=
          { families := [household],
            stock_items := [{ rice 10 with updated_at := 8 }],
            sales :=
              [{ id := 1, family_id := "F001", item_id := 1, item_name := "Rice",
                 quantity := 20, unit_price := 1, total_amount := 20, sale_date := 7 },
               { id := 2, family_id := "F001", item_id := 1, item_name := "Rice",
                 quantity := 20, unit_price := 1, total_amount := 20, sale_date := 8 }],
            seq_families := 1, seq_stock_items := 1, seq_sales := 2 },
        t1 := .done ⟨201, .sale 1 "F001" 1 "Rice" 20 1 20⟩,
        t2 := .done ⟨201, .sale 2 "F001" 1 "Rice" 20 1 20⟩ } ∧
    interleave ⟨7, SaleFaults.ok, order 40⟩ ⟨8, SaleFaults.ok, order 50⟩ (shop 30) serial =
      { db := shop 30,
        t1 := .done ⟨400, .error (.insufficientStock 30)⟩,
        t2 := .done ⟨400, .error (.insufficientStock 30)⟩ } := by
  constructor
  · simp [interleave, alternating, Race.step, SaleTask.step, shop, order, SaleFaults.ok,
      getStockItem, getFamilyByFamilyId, rice, household, insertSale, updateCurrentStock, freshId]
    norm_num
  · simp [interleave, serial, Race.step, SaleTask.step, shop, order, SaleFaults.ok,
      getStockItem, rice]
    norm_num

/-- C9, amended: take two sales against the same stored item, with all fields
present and non-zero, the first for a registered family and a quantity the
item can cover, the sum of the two quantities exceeding the item's
`current_stock`, on a store without negative stock and with no store failure.
Handled one after the other, exactly one succeeds: the first is answered 201
and the second 400 with the insufficient-stock message (reporting what the
first left).  In every interleaving of their store calls no `current_stock`
goes negative.  Numbers are the exact rationals: the sum of the quantities,
what the first sale leaves and the comparison of the second quantity with it
are the exact ones, where the server rounds each difference to a double; on
doubles whose difference is rounded up (12.1 less 4.03, then a sale of 8.07)
the server accepts the second sale as well. -/
theorem two_sales_same_item (db : Store) (now1 now2 : Nat) (itemId : Nat) (item : StockItem)
    (fam : Family) (familyId1 familyId2 : String) (q1 u1 t1 q2 u2 t2 : ℚ)
    (hitem : getStockItem db itemId = some item)
    (hfam : getFamilyByFamilyId db familyId1 = some fam)
    (hi : itemId ≠ 0)
    (hf1 : familyId1 ≠ "") (hq1 : q1 ≠ 0) (hu1 : u1 ≠ 0) (ht1 : t1 ≠ 0)
    (hf2 : familyId2 ≠ "") (hq2 : q2 ≠ 0) (hu2 : u2 ≠ 0) (ht2 : t2 ≠ 0)
    (hle : q1 ≤ item.current_stock) (hsum : q1 + q2 > item.current_stock)
    (hdb : ∀ r ∈ db.stock_items, 0 ≤ r.current_stock) :
    (∃ saleId,
      (interleave ⟨now1, SaleFaults.ok, ⟨some familyId1, some itemId, some q1, some u1, some t1⟩⟩
          ⟨now2, SaleFaults.ok, ⟨some familyId2, some itemId, some q2, some u2, some t2⟩⟩
          db serial).t1 =
        .done ⟨201, .sale saleId familyId1 itemId item.item_name q1 u1 t1⟩) ∧
    (interleave ⟨now1, SaleFaults.ok, ⟨some familyId1, some itemId, some q1, some u1, some t1⟩⟩
        ⟨now2, SaleFaults.ok, ⟨some familyId2, some itemId, some q2, some u2, some t2⟩⟩
        db serial).t2 =
      .done ⟨400, .error (.insufficientStock (item.current_stock - q1))⟩ ∧
    ∀ sched, ∀ r ∈
      (interleave ⟨now1, SaleFaults.ok, ⟨some familyId1, some itemId, some q1, some u1, some t1⟩⟩
        ⟨now2, SaleFaults.ok, ⟨some familyId2, some itemId, some q2, some u2, some t2⟩⟩
        db sched).db.stock_items, 0 ≤ r.current_stock := by
  have hfirst : recordSale db now1 SaleFaults.ok
      ⟨some familyId1, some itemId, some q1, some u1, some t1⟩ =
      (⟨201, .sale (insertSale db now1 familyId1 itemId item.item_name q1 u1 t1).1 familyId1
          itemId item.item_name q1 u1 t1⟩,
       updateCurrentStock (insertSale db now1 familyId1 itemId item.item_name q1 u1 t1).2 now1
         (item.current_stock - q1) itemId) := by
    simp [recordSale, SaleFaults.ok, hi, hf1, hq1, hu1, ht1, hitem, hfam, not_lt.mpr hle]
  have hgt : q2 > item.current_stock - q1 := by linarith
  have hsecond : recordSale
      (updateCurrentStock (insertSale db now1 familyId1 itemId item.item_name q1 u1 t1).2 now1
         (item.current_stock - q1) itemId) now2 SaleFaults.ok
      ⟨some familyId2, some itemId, some q2, some u2, some t2⟩ =
      (⟨400, .error (.insufficientStock (item.current_stock - q1))⟩,
       updateCurrentStock (insertSale db now1 familyId1 itemId item.item_name q1 u1 t1).2 now1
         (item.current_stock - q1) itemId) := by
      have hrow : getStockItem
          (updateCurrentStock (insertSale db now1 familyId1 itemId item.item_name q1 u1 t1).2
            now1 (item.current_stock - q1) itemId) itemId =
          some { item with current_stock := item.current_stock - q1, updated_at := now1 } := by
        rw [getStockItem_updateCurrentStock, getStockItem_insertSale, hitem]
        rfl
      simp [recordSale, SaleFaults.ok, hi, hf2, hq2, hu2, ht2, hrow, hgt]
  refine ⟨⟨(insertSale db now1 familyId1 itemId item.item_name q1 u1 t1).1, ?_⟩, ?_, ?_⟩
  · rw [interleave_serial]
    simp only [hfirst]
  · rw [interleave_serial]
    simp only [hfirst, hsecond]
  · intro sched
    exact interleave_stock_nonneg _ _ db hdb sched

/-- Instance of C9 amended: sales of 20 and of 20 against the 30 units of
`shop 30`. -/
theorem two_sales_same_item_witness :
    (∃ saleId,
      (interleave ⟨7, SaleFaults.ok, ⟨some "F001", some 1, some 20, some 1, some 20⟩⟩
          ⟨8, SaleFaults.ok, ⟨some "F001", some 1, some 20, some 1, some 20⟩⟩
          (shop 30) serial).t1 =
        .done ⟨201, .sale saleId "F001" 1 (rice 30).item_name 20 1 20⟩) ∧
    (interleave ⟨7, SaleFaults.ok, ⟨some "F001", some 1, some 20, some 1, some 20⟩⟩
        ⟨8, SaleFaults.ok, ⟨some "F001", some 1, some 20, some 1, some 20⟩⟩
        (shop 30) serial).t2 =
      .done ⟨400, .error (.insufficientStock ((rice 30).current_stock - 20))⟩ ∧
    ∀ sched, ∀ r ∈
      (interleave ⟨7, SaleFaults.ok, ⟨some "F001", some 1, some 20, some 1, some 20⟩⟩
        ⟨8, SaleFaults.ok, ⟨some "F001", some 1, some 20, some 1, some 20⟩⟩
        (shop 30) sched).db.stock_items, 0 ≤ r.current_stock :=
  two_sales_same_item (shop 30) 7 8 1 (rice 30) household "F001" "F001" 20 1 20 20 1 20
    (by simp [getStockItem, shop, rice]) (by simp [getFamilyByFamilyId, shop, household])
    (by decide) (by decide) (by decide) (by decide) (by decide)
    (by decide) (by decide) (by decide) (by decide)
    (by simp [rice]; norm_num) (by simp [rice]; norm_num)
    (by
      intro r hr
      simp only [shop, List.mem_singleton] at hr
      subst hr
      simp [rice])

/-! ### The bound on stock writes -/

/-- C10, as stated, fails: a stock create with `currentStock` 20 above
`totalStock` 10 and no `itemName` is answered 400 'All fields are required',
not 'Current stock cannot be greater than total stock'; so is the update. -/
theorem createStock_exceeding_without_name :
    createStock (shop 50) 7 none
        { itemName := none, category := some "Grains", totalStock := some 10,
          currentStock := some 20, threshold := some 1 } =
      (⟨400, .error .allFieldsRequired⟩, shop 50) ∧
    updateStock (shop 50) 7 none 1
        { itemName := none, category := some "Grains", totalStock := some 10,
          currentStock := some 20, threshold := some 1 } =
      (⟨400, .error .allFieldsRequired⟩, shop 50) ∧
    (⟨400, .error .allFieldsRequired⟩ : Response) ≠ ⟨400, .error .stockExceedsTotal⟩ := by
  refine ⟨rfl, rfl, by decide⟩

/-- C10, amended: a stock create or update whose `currentStock` exceeds its
`totalStock` is answered 400 and leaves the store unchanged; the message is
'Current stock cannot be greater than total stock' when the presence check
passes (itemName and category non-empty, threshold present) and 'All fields are
required' otherwise.  Every row written by a successful create (201) or update
(200) has `current_stock ≤ total_stock`. -/
theorem stock_write_bound (db : Store) (now : Nat) (fault : Option String) (id : Nat)
    (req : StockRequest) :
    (∀ total current, req.totalStock = some total → req.currentStock = some current →
      current > total →
      (createStock db now fault req).2 = db ∧ (createStock db now fault req).1.status = 400 ∧
      (updateStock db now fault id req).2 = db ∧
      (updateStock db now fault id req).1.status = 400 ∧
      ((∃ name cat th, req.itemName = some name ∧ name ≠ "" ∧ req.category = some cat ∧
          cat ≠ "" ∧ req.threshold = some th) →
        (createStock db now fault req).1 = ⟨400, .error .stockExceedsTotal⟩ ∧
        (updateStock db now fault id req).1 = ⟨400, .error .stockExceedsTotal⟩) ∧
      (¬ (∃ name cat th, req.itemName = some name ∧ name ≠ "" ∧ req.category = some cat ∧
          cat ≠ "" ∧ req.threshold = some th) →
        (createStock db now fault req).1 = ⟨400, .error .allFieldsRequired⟩ ∧
        (updateStock db now fault id req).1 = ⟨400, .error .allFieldsRequired⟩)) ∧
    ((createStock db now fault req).1.status = 201 →
      ∃ row, (createStock db now fault req).2.stock_items = db.stock_items ++ [row] ∧
        req.totalStock = some row.total_stock ∧ req.currentStock = some row.current_stock ∧
        row.current_stock ≤ row.total_stock) ∧
    ((updateStock db now fault id req).1.status = 200 →
      (∃ r ∈ (updateStock db now fault id req).2.stock_items, r.id = id) ∧
      ∀ r ∈ (updateStock db now fault id req).2.stock_items, r.id = id →
        req.totalStock = some r.total_stock ∧ req.currentStock = some r.current_stock ∧
        r.current_stock ≤ r.total_stock) := by
  obtain ⟨n, c, t, cs, th⟩ := req
  refine ⟨?_, ?_, ?_⟩
  · intro total current htot hcur hgt
    simp only [Option.some.injEq] at htot hcur
    subst htot hcur
    cases n <;> cases c <;> cases th <;> simp only [createStock, updateStock] <;>
      try (simp; done)
    rename_i name cat thr
    by_cases hn : name = "" ∨ cat = ""
    · simp only [hn, if_true]
      refine ⟨trivial, trivial, trivial, trivial, ?_, ?_⟩
      · rintro ⟨name', cat', th', h1, h2, h3, h4, -⟩
        simp only [Option.some.injEq] at h1 h3
        subst h1 h3
        rcases hn with hn | hn
        · exact absurd hn h2
        · exact absurd hn h4
      · intro _
        exact ⟨trivial, trivial⟩
    · simp only [hn, if_false, hgt, if_true]
      refine ⟨trivial, trivial, trivial, trivial, fun _ => ⟨trivial, trivial⟩, ?_⟩
      intro hne
      exfalso
      apply hne
      simp only [not_or] at hn
      exact ⟨name, cat, thr, rfl, hn.1, rfl, hn.2, rfl⟩
  · intro hs
    cases n <;> cases c <;> cases t <;> cases cs <;> cases th <;>
      simp only [createStock] at hs ⊢ <;> try (simp at hs; done)
    rename_i name cat total current thr
    split at hs
    · simp at hs
    split at hs
    · simp at hs
    rename_i hn hle
    split at hs
    · simp at hs
    simp only [hn, hle, if_false]
    exact ⟨_, rfl, rfl, rfl, not_lt.mp hle⟩
  · intro hs
    cases n <;> cases c <;> cases t <;> cases cs <;> cases th <;>
      simp only [updateStock] at hs ⊢ <;> try (simp at hs; done)
    rename_i name cat total current thr
    split at hs
    · simp at hs
    split at hs
    · simp at hs
    rename_i hn hle
    split at hs
    · simp at hs
    split at hs
    · simp at hs
    rename_i hlen
    simp only [hn, hle, if_false, hlen]
    constructor
    · have hpos : 0 < (List.filter (fun r => decide (r.id = id)) db.stock_items).length :=
        Nat.pos_of_ne_zero hlen
      obtain ⟨r0, hr0⟩ := List.exists_mem_of_length_pos hpos
      rw [List.mem_filter] at hr0
      have hid : r0.id = id := by simpa using hr0.2
      refine ⟨_, List.mem_map.mpr ⟨r0, hr0.1, rfl⟩, ?_⟩
      simp only [hid, if_true]
    · intro r hr hid
      simp only [List.mem_map] at hr
      obtain ⟨r0, hr0, rfl⟩ := hr
      by_cases h0 : r0.id = id
      · simp only [h0, if_true]
        exact ⟨trivial, trivial, not_lt.mp hle⟩
      · simp only [h0, if_false] at hid

/-- Instance of C10 amended: on `shop 50`, a create and an update of rice with
`currentStock` 20 above `totalStock` 10 are refused with the stock-bound
message and change nothing. -/
theorem stock_write_bound_witness :
    ((20 : ℚ) > 10) ∧
    (createStock (shop 50) 7 none (riceRequest 10 20)).2 = shop 50 ∧
    (updateStock (shop 50) 7 none 1 (riceRequest 10 20)).2 = shop 50 ∧
    (createStock (shop 50) 7 none (riceRequest 10 20)).1 = ⟨400, .error .stockExceedsTotal⟩ ∧
    (updateStock (shop 50) 7 none 1 (riceRequest 10 20)).1 = ⟨400, .error .stockExceedsTotal⟩ :=
  have hgt : (20 : ℚ) > 10 := by norm_num
  have h := (stock_write_bound (shop 50) 7 none 1 (riceRequest 10 20)).1 10 20 rfl rfl hgt
  have hp := h.2.2.2.2.1 ⟨"Rice", "Grains", 10, rfl, by decide, rfl, by decide, rfl⟩
  ⟨hgt, h.1, h.2.2.1, hp.1, hp.2⟩

/-! ### Uniqueness of the family key -/

theorem includes_uniqueViolation : includes uniqueViolation "UNIQUE constraint failed" = true := by
  decide

theorem insertFamilyError_of_mem (db : Store) (f : String)
    (hex : ∃ r ∈ db.families, r.family_id = f) :
    insertFamilyError db none f = some uniqueViolation := by
  obtain ⟨r, hr, hrf⟩ := hex
  have : db.families.any (fun r => decide (r.family_id = f)) = true :=
    List.any_eq_true.mpr ⟨r, hr, by simpa using hrf⟩
  simp only [insertFamilyError, this, if_true]

/-- C11, as stated, fails: a create that carries the `familyId` of a stored
family and nothing else is answered 400 'All fields are required', not 'Family
ID already exists'. -/
theorem createFamily_existing_familyId_incomplete :
    createFamily (shop 50) 7 none
        { familyId := some "F001", headOfFamily := none, numMembers := none,
          memberList := none, address := none, phone := none, aadhaar := none,
          cardType := none } =
      (⟨400, .error .allFieldsRequired⟩, shop 50) ∧
    (∃ r ∈ (shop 50).families, r.family_id = "F001") ∧
    (⟨400, .error .allFieldsRequired⟩ : Response) ≠ ⟨400, .error .familyIdExists⟩ :=
  ⟨rfl, ⟨household, List.mem_singleton.mpr rfl, rfl⟩, by decide⟩

/-- C11, amended: on every store holding a family with `familyId` f, a create
with `familyId` f fails (400 or 500) and leaves the store, so the families, as
it was: no duplicate is stored.  When the request passes the presence check and
the engine reports nothing else, the answer is 400 'Family ID already exists';
when it does not pass the presence check, the answer is 400 'All fields are
required'. -/
theorem createFamily_existing_familyId (db : Store) (now : Nat) (fault : Option String)
    (req : FamilyRequest) (f : String) (hf : req.familyId = some f)
    (hex : ∃ r ∈ db.families, r.family_id = f) :
    (createFamily db now fault req).2 = db ∧
    ((createFamily db now fault req).1.status = 400 ∨
      (createFamily db now fault req).1.status = 500) ∧
    (req.complete → fault = none →
      (createFamily db now fault req).1 = ⟨400, .error .familyIdExists⟩) ∧
    (¬ req.complete →
      (createFamily db now fault req).1 = ⟨400, .error .allFieldsRequired⟩) := by
  obtain ⟨fid, h, n, m, a, p, aa, ct⟩ := req
  simp only at hf
  subst hf
  cases h <;> cases n <;> cases m <;> cases a <;> cases p <;>
    simp only [createFamily, FamilyRequest.complete] <;>
    try (simp; done)
  rename_i h n m a p
  by_cases hv : f = "" ∨ h = "" ∨ n = 0 ∨ a = "" ∨ p = ""
  · simp only [hv, if_true]
    refine ⟨trivial, Or.inl trivial, ?_, fun _ => trivial⟩
    rintro ⟨f', h', n', m', a', p', e1, e2, e3, e4, e5, e6, c1, c2, c3, c4, c5⟩
    simp only [Option.some.injEq] at e1 e2 e3 e4 e5 e6
    subst e1 e2 e3 e5 e6
    rcases hv with hv | hv | hv | hv | hv
    · exact absurd hv c1
    · exact absurd hv c2
    · exact absurd hv c3
    · exact absurd hv c4
    · exact absurd hv c5
  · simp only [hv, if_false]
    have hcomplete : ∃ familyId headOfFamily numMembers memberList address phone,
        some f = some familyId ∧ some h = some headOfFamily ∧ some n = some numMembers ∧
        some m = some memberList ∧ some a = some address ∧ some p = some phone ∧
        familyId ≠ "" ∧ headOfFamily ≠ "" ∧ numMembers ≠ 0 ∧ address ≠ "" ∧ phone ≠ "" := by
      simp only [not_or] at hv
      exact ⟨f, h, n, m, a, p, rfl, rfl, rfl, rfl, rfl, rfl, hv.1, hv.2.1, hv.2.2.1, hv.2.2.2.1,
        hv.2.2.2.2⟩
    cases fault with
    | some e =>
      simp only [insertFamilyError]
      by_cases hi : includes e "UNIQUE constraint failed" = true
      · simp only [hi, if_true]
        exact ⟨trivial, Or.inl trivial, fun _ _ => trivial, fun hn => absurd hcomplete hn⟩
      · simp only [hi, Bool.false_eq_true, if_false]
        exact ⟨trivial, Or.inr trivial, fun _ hnone => by simp at hnone,
          fun hn => absurd hcomplete hn⟩
    | none =>
      simp only [insertFamilyError_of_mem db f hex, includes_uniqueViolation, if_true]
      exact ⟨trivial, Or.inl trivial, fun _ _ => trivial, fun hn => absurd hcomplete hn⟩

/-- Instance of C11 amended: registering `F001` a second time. -/
theorem createFamily_existing_familyId_witness :
    (createFamily (shop 50) 7 none householdRequest).2 = shop 50 ∧
    (createFamily (shop 50) 7 none householdRequest).1 = ⟨400, .error .familyIdExists⟩ :=
  have h := createFamily_existing_familyId (shop 50) 7 none householdRequest "F001" rfl
    ⟨household, List.mem_singleton.mpr rfl, rfl⟩
  ⟨h.1, h.2.2.1
    ⟨"F001", "Asha", 2, ["Asha", "Ravi"], "12 Market Road", "5550100", rfl, rfl, rfl, rfl, rfl,
      rfl, by decide, by decide, by decide, by decide, by decide⟩ rfl⟩

theorem freshId_gt (ids : List Nat) (seq : Nat) : ∀ x ∈ ids, x < freshId ids seq := by
  intro x hx
  have h : x ≤ ids.foldr max 0 := by
    induction ids with
    | nil => exact absurd hx (List.not_mem_nil x)
    | cons y ys ih =>
      simp only [List.foldr]
      rcases List.mem_cons.mp hx with rfl | hx
      · exact le_max_left _ _
      · exact le_trans (ih hx) (le_max_right _ _)
  unfold freshId
  exact Nat.lt_succ_of_le (le_trans h (le_max_right _ _))

theorem createStock_families (db : Store) (now : Nat) (fault : Option String)
    (req : StockRequest) : (createStock db now fault req).2.families = db.families := by
  unfold createStock
  repeat' split
  all_goals rfl

theorem updateStock_families (db : Store) (now : Nat) (fault : Option String) (id : Nat)
    (req : StockRequest) : (updateStock db now fault id req).2.families = db.families := by
  unfold updateStock
  repeat' split
  all_goals rfl

theorem deleteStock_families (db : Store) (fault : Option String) (id : Nat) :
    (deleteStock db fault id).2.families = db.families := by
  unfold deleteStock
  repeat' split
  all_goals rfl

theorem recordSale_families (db : Store) (now : Nat) (fl : SaleFaults) (req : SaleRequest) :
    (recordSale db now fl req).2.families = db.families := by
  obtain ⟨fid, iid, q, up, ta⟩ := req
  cases fid <;> cases iid <;> cases q <;> cases up <;> cases ta <;>
    simp only [recordSale]
  repeat' split
  all_goals rfl

/-- The families after a create: as before, or one new row under a fresh `id`
and a `family_id` no row held. -/
theorem createFamily_families (db : Store) (now : Nat) (fault : Option String)
    (req : FamilyRequest) :
    (createFamily db now fault req).2.families = db.families ∨
    ∃ row, (createFamily db now fault req).2.families = db.families ++ [row] ∧
      (∀ r ∈ db.families, r.id ≠ row.id) ∧ (∀ r ∈ db.families, r.family_id ≠ row.family_id) ∧
      req.familyId = some row.family_id := by
  obtain ⟨fid, h, n, m, a, p, aa, ct⟩ := req
  cases fid <;> cases h <;> cases n <;> cases m <;> cases a <;> cases p <;>
    simp only [createFamily] <;> try (exact Or.inl trivial)
  rename_i f h n m a p
  split
  · left; rfl
  split
  · split
    · left; rfl
    · left; rfl
  · rename_i herr
    right
    refine ⟨_, rfl, ?_, ?_, rfl⟩
    · intro r hr
      exact Nat.ne_of_lt
        (freshId_gt (db.families.map (fun r => r.id)) db.seq_families r.id
          (List.mem_map.mpr ⟨r, hr, rfl⟩))
    · intro r hr heq
      cases fault with
      | some e => simp [insertFamilyError] at herr
      | none =>
        rw [insertFamilyError_of_mem db f ⟨r, hr, heq⟩] at herr
        simp at herr

/-- The families after an update: as before, or the rows under `id` rewritten
with a `family_id` that no other row holds. -/
theorem updateFamily_families (db : Store) (now : Nat) (fault : Option String) (id : Nat)
    (req : FamilyRequest) :
    (updateFamily db now fault id req).2.families = db.families ∨
    ∃ (g : Family → Family) (f : String),
      (updateFamily db now fault id req).2.families = db.families.map g ∧
      (∀ r, (g r).id = r.id) ∧ (∀ r, r.id ≠ id → g r = r) ∧
      (∀ r, r.id = id → (g r).family_id = f) ∧
      (∀ r ∈ db.families, r.id ≠ id → r.family_id ≠ f) := by
  obtain ⟨fid, h, n, m, a, p, aa, ct⟩ := req
  cases fid <;> cases h <;> cases n <;> cases m <;> cases a <;> cases p <;>
    simp only [updateFamily] <;> try (exact Or.inl trivial)
  rename_i f h n m a p
  split
  · left; rfl
  split
  · split
    · left; rfl
    · left; rfl
  rename_i herr
  split
  · left; rfl
  rename_i hlen
  right
  refine ⟨_, f, rfl, ?_, ?_, ?_, ?_⟩
  · intro r
    split <;> rfl
  · intro r hr
    simp only [hr, if_false]
  · intro r hr
    simp only [hr, if_true]
  · intro r hr hne heq
    obtain ⟨r0, hr0⟩ := List.exists_mem_of_length_pos (Nat.pos_of_ne_zero hlen)
    rw [List.mem_filter] at hr0
    have h1 : db.families.any (fun r => decide (r.id = id)) = true :=
      List.any_eq_true.mpr ⟨r0, hr0.1, hr0.2⟩
    have h2 : db.families.any (fun r => decide (¬ r.id = id ∧ r.family_id = f)) = true :=
      List.any_eq_true.mpr ⟨r, hr, by simpa using ⟨hne, heq⟩⟩
    cases fault with
    | some e => simp [updateFamilyError] at herr
    | none =>
      simp [updateFamilyError, h1, h2] at herr
      exact herr r hr hne heq

/-- One request keeps the keys of table `families`. -/
theorem step_familyKeysUnique (db : Store) (now : Nat) (op : Op) (hdb : db.familyKeysUnique) :
    (step db now op).2.familyKeysUnique := by
  unfold Store.familyKeysUnique at hdb ⊢
  cases op with
  | createFamily fault req =>
    simp only [step]
    rcases createFamily_families db now fault req with h | ⟨row, h, hid, hfid, -⟩
    · rw [h]; exact hdb
    · rw [h, List.pairwise_append]
      exact ⟨hdb, List.pairwise_singleton _ _, fun a ha b hb => by
        rw [List.mem_singleton.mp hb]
        exact ⟨hid a ha, hfid a ha⟩⟩
  | updateFamily fault id req =>
    simp only [step]
    rcases updateFamily_families db now fault id req with h | ⟨g, f, h, hgid, hgne, hgf, hno⟩
    · rw [h]; exact hdb
    · rw [h, List.pairwise_map]
      refine hdb.imp_of_mem ?_
      intro a b ha hb hab
      refine ⟨by rw [hgid, hgid]; exact hab.1, ?_⟩
      by_cases ha' : a.id = id
      · have hb' : b.id ≠ id := fun hb' => hab.1 (ha'.trans hb'.symm)
        rw [hgf a ha', hgne b hb']
        exact fun heq => hno b hb hb' heq.symm
      · rw [hgne a ha']
        by_cases hb' : b.id = id
        · rw [hgf b hb']
          exact hno a ha ha'
        · rw [hgne b hb']
          exact hab.2
  | deleteFamily fault id =>
    simp only [step, deleteFamily]
    repeat' split
    all_goals first | exact hdb | exact hdb.filter _
  | createStock fault req => simpa only [step, createStock_families] using hdb
  | updateStock fault id req => simpa only [step, updateStock_families] using hdb
  | deleteStock fault id => simpa only [step, deleteStock_families] using hdb
  | recordSale fl req => simpa only [step, recordSale_families] using hdb

/-- Every sequence of requests keeps the keys of table `families`. -/
theorem run_familyKeysUnique (ops : List (Nat × Op)) (db : Store) (hdb : db.familyKeysUnique) :
    (run db ops).familyKeysUnique := by
  induction ops generalizing db with
  | nil => exact hdb
  | cons p rest ih => exact ih _ (step_familyKeysUnique db p.1 p.2 hdb)

/-- C12, as stated, fails in its second part: an update of family 1 that
carries the `familyId` of family 2 and nothing else is answered 400 'All fields
are required', not the conflict error. -/
theorem updateFamily_conflicting_incomplete :
    updateFamily (street 50) 7 none 1
        { familyId := some "F002", headOfFamily := none, numMembers := none,
          memberList := none, address := none, phone := none, aadhaar := none,
          cardType := none } =
      (⟨400, .error .allFieldsRequired⟩, street 50) ∧
    (∃ r ∈ (street 50).families, r.id = 1) ∧
    (∃ r ∈ (street 50).families, r.id ≠ 1 ∧ r.family_id = "F002") ∧
    (⟨400, .error .allFieldsRequired⟩ : Response) ≠ ⟨400, .error .familyIdExists⟩ :=
  ⟨rfl, ⟨household, List.mem_cons_self _ _, rfl⟩,
    ⟨neighbours, List.mem_cons_of_mem _ (List.mem_singleton.mpr rfl), by decide, rfl⟩,
    by decide⟩

/-- C12, amended: in every state reached from the empty store by a sequence of
requests (family create, update and delete, and the stock and sale requests as
well, with any store failures) no two stored families have the same
`family_id`.  And on every store, an update of a stored family that passes the
presence check and carries the `family_id` of a different stored family is
answered 400 'Family ID already exists' and leaves the store unchanged (the
engine reporting nothing else). -/
theorem family_ids_unique (ops : List (Nat × Op)) :
    ((run Store.empty ops).families.map (fun r => r.family_id)).Nodup ∧
    ∀ (db : Store) (now id : Nat) (req : FamilyRequest) (f : String),
      req.familyId = some f → req.complete →
      (∃ r ∈ db.families, r.id = id) → (∃ r ∈ db.families, r.id ≠ id ∧ r.family_id = f) →
      updateFamily db now none id req = (⟨400, .error .familyIdExists⟩, db) := by
  constructor
  · have h := run_familyKeysUnique ops Store.empty List.Pairwise.nil
    exact List.pairwise_map.mpr (h.imp (fun hab => hab.2))
  · intro db now id req f hf hc ⟨r1, hr1, hid1⟩ ⟨r2, hr2, hne2, hf2⟩
    obtain ⟨f', h, n, m, a, p, e1, e2, e3, e4, e5, e6, c1, c2, c3, c4, c5⟩ := hc
    obtain ⟨fid, ho, no, mo, ao, po, aa, ct⟩ := req
    simp only at hf e1 e2 e3 e4 e5 e6
    subst hf e2 e3 e4 e5 e6
    simp only [Option.some.injEq] at e1
    subst e1
    have h1 : db.families.any (fun r => decide (r.id = id)) = true :=
      List.any_eq_true.mpr ⟨r1, hr1, by simpa using hid1⟩
    have h2 : db.families.any (fun r => decide (¬ r.id = id ∧ r.family_id = f)) = true :=
      List.any_eq_true.mpr ⟨r2, hr2, by simpa using ⟨hne2, hf2⟩⟩
    have herr : updateFamilyError db none id f = some uniqueViolation := by
      simp only [updateFamilyError, h1, h2, and_self, if_true]
    simp only [updateFamily, c1, c2, c3, c4, c5, or_self, if_false, herr,
      includes_uniqueViolation, if_true]

/-- Instance of C12 amended: four family requests from the empty store, and an
update of family 1 to the key `F002` of family 2. -/
theorem family_ids_unique_witness :
    ((run Store.empty
        [(0, .createFamily none householdRequest), (1, .createFamily none householdRequest),
         (2, .updateFamily none 1 { householdRequest with familyId := some "F009" }),
         (3, .deleteFamily none 1)]).families.map (fun r => r.family_id)).Nodup ∧
    updateFamily (street 50) 7 none 1 { householdRequest with familyId := some "F002" } =
      (⟨400, .error .familyIdExists⟩, street 50) :=
  ⟨(family_ids_unique _).1,
   (family_ids_unique []).2 (street 50) 7 1 { householdRequest with familyId := some "F002" }
     "F002" rfl
     ⟨"F002", "Asha", 2, ["Asha", "Ravi"], "12 Market Road", "5550100", rfl, rfl, rfl, rfl, rfl,
       rfl, by decide, by decide, by decide, by decide, by decide⟩
     ⟨household, List.mem_cons_self _ _, rfl⟩
     ⟨neighbours, List.mem_cons_of_mem _ (List.mem_singleton.mpr rfl), by decide, rfl⟩⟩

/-! ### Dashboard -/

theorem orZero_eq {α : Type} [Zero α] [DecidableEq α] (x : α) : orZero x = x := by
  unfold orZero
  split
  · rename_i h; exact h.symm
  · rfl

/-- With its four queries running, the dashboard answers 200 with the two
table sizes, the number of rows `lowStock` selects, and the sum and number of
the rows `todaySales` selects (numbers taken as exact). -/
theorem dashboardStats_ok (db : Store) (now : Nat) :
    dashboardStats db now StatsFaults.ok =
      ⟨200, .stats db.stock_items.length db.families.length (lowStock db).length
        (sumTotalAmount (todaySales db now)) (todaySales db now).length⟩ := by
  simp only [dashboardStats, StatsFaults.ok, orZero_eq]

/-- C13: on every store (the four queries running) the dashboard returns
`totalStockItems` = the number of stock items, `registeredFamilies` = the
number of families and `lowStockItems` = the number of stock items with
`current_stock ≤ threshold`; an item whose `current_stock` equals its
`threshold` is among the rows counted. -/
theorem dashboardStats_counts (db : Store) (now : Nat) :
    (∃ amount count,
      dashboardStats db now StatsFaults.ok =
        ⟨200, .stats db.stock_items.length db.families.length
          (db.stock_items.countP (fun r => r.current_stock ≤ r.threshold)) amount count⟩) ∧
    (lowStock db).length = db.stock_items.countP (fun r => r.current_stock ≤ r.threshold) ∧
    ∀ r ∈ db.stock_items, r.current_stock = r.threshold → r ∈ lowStock db := by
  have hc : (lowStock db).length =
      db.stock_items.countP (fun r => r.current_stock ≤ r.threshold) := by
    simp only [lowStock, List.countP_eq_length_filter]
  refine ⟨⟨sumTotalAmount (todaySales db now), (todaySales db now).length, ?_⟩, hc, ?_⟩
  · rw [dashboardStats_ok, hc]
  · intro r hr heq
    simp only [lowStock, List.mem_filter, decide_eq_true_eq]
    exact ⟨hr, le_of_eq heq⟩

/-- C14: after every successful `recordSale` of quantity q against an item, the
row of that item in the resulting store is among the rows the dashboard counts
as low stock if and only if its `current_stock` before minus q is at most its
threshold, and `lowStockItems` is the number of those rows.  Concretely, with
the item at total 100, current 50, threshold 10, a sale of 20 succeeds, leaves
`current_stock` 30, and the dashboard reports `lowStockItems` 0.  Numbers are
the exact rationals: `current_stock` before minus q is the exact difference,
where the server stores and compares the double nearest to it. -/
theorem recordSale_low_stock :
    (∀ (db : Store) (now : Nat) (fl : SaleFaults) (req : SaleRequest),
      (recordSale db now fl req).1.status = 201 →
      ∃ itemId quantity item row,
        req.itemId = some itemId ∧ req.quantity = some quantity ∧
        getStockItem db itemId = some item ∧
        getStockItem (recordSale db now fl req).2 itemId = some row ∧
        row.current_stock = item.current_stock - quantity ∧
        (row ∈ lowStock (recordSale db now fl req).2 ↔
          item.current_stock - quantity ≤ item.threshold) ∧
        ∀ now2, ∃ n m amount count,
          dashboardStats (recordSale db now fl req).2 now2 StatsFaults.ok =
            ⟨200, .stats n m (lowStock (recordSale db now fl req).2).length amount count⟩) ∧
    (recordSale (shop 50) 7 SaleFaults.ok (order 20)).1.status = 201 ∧
    (recordSale (shop 50) 7 SaleFaults.ok (order 20)).2.stock_items =
      [{ rice 30 with updated_at := 7 }] ∧
    dashboardStats (recordSale (shop 50) 7 SaleFaults.ok (order 20)).2 8 StatsFaults.ok =
      ⟨200, .stats 1 1 0 20 1⟩ := by
  refine ⟨?_, ?_, ?_, ?_⟩
  · intro db now fl req h
    obtain ⟨familyId, itemId, quantity, unitPrice, totalAmount, item, fam, hreq, -, -, -, -, -,
      hitem, -, -, heq⟩ := recordSale_success_inv db now fl req h
    have hrow : getStockItem (recordSale db now fl req).2 itemId =
        some { item with current_stock := item.current_stock - quantity, updated_at := now } := by
      rw [heq]
      simp only [getStockItem_updateCurrentStock, getStockItem_insertSale, hitem, Option.map]
    refine ⟨itemId, quantity, item, _, by rw [hreq], by rw [hreq], hitem, hrow, rfl, ?_, ?_⟩
    · have hmem := List.mem_of_find?_eq_some hrow
      simp only [lowStock, List.mem_filter, decide_eq_true_eq]
      exact ⟨fun hlow => hlow.2, fun hle => ⟨hmem, hle⟩⟩
    · intro now2
      exact ⟨_, _, _, _, dashboardStats_ok _ now2⟩
  · simp [recordSale, shop, order, SaleFaults.ok, getStockItem, getFamilyByFamilyId, rice,
      household]
    norm_num
  · simp [recordSale, shop, order, SaleFaults.ok, getStockItem, getFamilyByFamilyId, rice,
      household, insertSale, updateCurrentStock, freshId]
    norm_num
  · rw [dashboardStats_ok]
    simp [recordSale, shop, order, SaleFaults.ok, getStockItem, getFamilyByFamilyId, rice,
      household, insertSale, updateCurrentStock, freshId, lowStock, todaySales, sumTotalAmount,
      date]
    norm_num

/-- Instance of C14: a sale of 45 of the 50 units leaves 5, at most the
threshold 10, and the row is counted. -/
theorem recordSale_low_stock_witness :
    (recordSale (shop 50) 7 SaleFaults.ok (order 45)).1.status = 201 ∧
    ∃ itemId quantity item row,
      (order 45).itemId = some itemId ∧ (order 45).quantity = some quantity ∧
      getStockItem (shop 50) itemId = some item ∧
      getStockItem (recordSale (shop 50) 7 SaleFaults.ok (order 45)).2 itemId = some row ∧
      row.current_stock = item.current_stock - quantity ∧
      (row ∈ lowStock (recordSale (shop 50) 7 SaleFaults.ok (order 45)).2 ↔
        item.current_stock - quantity ≤ item.threshold) ∧
      ∀ now2, ∃ n m amount count,
        dashboardStats (recordSale (shop 50) 7 SaleFaults.ok (order 45)).2 now2 StatsFaults.ok =
          ⟨200, .stats n m (lowStock (recordSale (shop 50) 7 SaleFaults.ok (order 45)).2).length
            amount count⟩ :=
  have h : (recordSale (shop 50) 7 SaleFaults.ok (order 45)).1.status = 201 := by
    simp [recordSale, shop, order, SaleFaults.ok, getStockItem, getFamilyByFamilyId, rice,
      household]
    norm_num
  ⟨h, recordSale_low_stock.1 (shop 50) 7 SaleFaults.ok (order 45) h⟩

/-! ### The sales table under the other requests -/

theorem createFamily_sales (db : Store) (now : Nat) (fault : Option String)
    (req : FamilyRequest) : (createFamily db now fault req).2.sales = db.sales := by
  unfold createFamily
  repeat' split
  all_goals rfl

theorem updateFamily_sales (db : Store) (now : Nat) (fault : Option String) (id : Nat)
    (req : FamilyRequest) : (updateFamily db now fault id req).2.sales = db.sales := by
  unfold updateFamily
  repeat' split
  all_goals rfl

theorem deleteFamily_sales (db : Store) (fault : Option String) (id : Nat) :
    (deleteFamily db fault id).2.sales = db.sales := by
  unfold deleteFamily
  repeat' split
  all_goals rfl

theorem createStock_sales (db : Store) (now : Nat) (fault : Option String)
    (req : StockRequest) : (createStock db now fault req).2.sales = db.sales := by
  unfold createStock
  repeat' split
  all_goals rfl

theorem updateStock_sales (db : Store) (now : Nat) (fault : Option String) (id : Nat)
    (req : StockRequest) : (updateStock db now fault id req).2.sales = db.sales := by
  unfold updateStock
  repeat' split
  all_goals rfl

theorem deleteStock_sales (db : Store) (fault : Option String) (id : Nat) :
    (deleteStock db fault id).2.sales = db.sales := by
  unfold deleteStock
  repeat' split
  all_goals rfl

/-- The sales table after `recordSale`: as before, or with one row appended. -/
theorem recordSale_sales (db : Store) (now : Nat) (fl : SaleFaults) (req : SaleRequest) :
    (recordSale db now fl req).2.sales = db.sales ∨
    ∃ s, (recordSale db now fl req).2.sales = db.sales ++ [s] := by
  obtain ⟨fid, iid, q, up, ta⟩ := req
  cases fid <;> cases iid <;> cases q <;> cases up <;> cases ta <;>
    simp only [recordSale]
  all_goals try (exact Or.inl trivial)
  repeat' split
  all_goals first
    | exact Or.inl rfl
    | exact Or.inr ⟨_, rfl⟩

/-- C16: for every request to a writing endpoint and every store, the sales
table afterwards is the old table, or the old table followed by one new row:
every row present before is present, in place and unchanged, and none is
removed.  (The reading endpoints return a response only.) -/
theorem sales_append_only (db : Store) (now : Nat) (op : Op) :
    ((step db now op).2.sales = db.sales ∨
      ∃ s, (step db now op).2.sales = db.sales ++ [s]) ∧
    db.sales <+: (step db now op).2.sales ∧
    ∀ s ∈ db.sales, s ∈ (step db now op).2.sales := by
  have h : (step db now op).2.sales = db.sales ∨
      ∃ s, (step db now op).2.sales = db.sales ++ [s] := by
    cases op with
    | createFamily fault req => exact Or.inl (createFamily_sales db now fault req)
    | updateFamily fault id req => exact Or.inl (updateFamily_sales db now fault id req)
    | deleteFamily fault id => exact Or.inl (deleteFamily_sales db fault id)
    | createStock fault req => exact Or.inl (createStock_sales db now fault req)
    | updateStock fault id req => exact Or.inl (updateStock_sales db now fault id req)
    | deleteStock fault id => exact Or.inl (deleteStock_sales db fault id)
    | recordSale fl req => exact recordSale_sales db now fl req
  refine ⟨h, ?_, ?_⟩
  · rcases h with h | ⟨s, h⟩
    · rw [h]
    · rw [h]; exact List.prefix_append _ _
  · intro s hs
    rcases h with h | ⟨s', h⟩
    · rw [h]; exact hs
    · rw [h]; exact List.mem_append_left _ hs

/-- C17: when a sale is recorded against an item whose name is n, the sale row
carries n, and after any stock update that follows (successful or not, of that
item or another, renaming it or not) the sales table still holds that row with
`item_name` n. -/
theorem sale_item_name_kept (db : Store) (now : Nat) (fl : SaleFaults) (req : SaleRequest)
    (now2 : Nat) (fault2 : Option String) (id2 : Nat) (req2 : StockRequest)
    (h : (recordSale db now fl req).1.status = 201) :
    ∃ itemId item sale,
      req.itemId = some itemId ∧ getStockItem db itemId = some item ∧
      sale.item_id = itemId ∧ sale.item_name = item.item_name ∧
      (recordSale db now fl req).2.sales = db.sales ++ [sale] ∧
      (updateStock (recordSale db now fl req).2 now2 fault2 id2 req2).2.sales =
        db.sales ++ [sale] := by
  obtain ⟨familyId, itemId, quantity, unitPrice, totalAmount, item, fam, hreq, -, -, -, -, -,
    hitem, -, -, heq⟩ := recordSale_success_inv db now fl req h
  have hsales : (recordSale db now fl req).2.sales = db.sales ++
      [{ id := (insertSale db now familyId itemId item.item_name quantity unitPrice
            totalAmount).1,
         family_id := familyId, item_id := itemId, item_name := item.item_name,
         quantity := quantity, unit_price := unitPrice, total_amount := totalAmount,
         sale_date := now }] := by
    rw [heq]
    rfl
  refine ⟨itemId, item, _, by rw [hreq], hitem, rfl, rfl, hsales, ?_⟩
  rw [updateStock_sales, hsales]

/-- Instance of C17: rice is sold from `shop 50`, then item 1 is renamed
`Basmati`; the item carries the new name and the sale the old one. -/
theorem sale_item_name_kept_witness :
    (recordSale (shop 50) 7 SaleFaults.ok (order 20)).1.status = 201 ∧
    (updateStock (recordSale (shop 50) 7 SaleFaults.ok (order 20)).2 9 none 1
        { riceRequest 100 30 with itemName := some "Basmati" }).1.status = 200 ∧
    (getStockItem
        (updateStock (recordSale (shop 50) 7 SaleFaults.ok (order 20)).2 9 none 1
          { riceRequest 100 30 with itemName := some "Basmati" }).2 1).map
      (fun r => r.item_name) = some "Basmati" ∧
    ∃ itemId item sale,
      (order 20).itemId = some itemId ∧ getStockItem (shop 50) itemId = some item ∧
      sale.item_id = itemId ∧ sale.item_name = item.item_name ∧
      (recordSale (shop 50) 7 SaleFaults.ok (order 20)).2.sales = (shop 50).sales ++ [sale] ∧
      (updateStock (recordSale (shop 50) 7 SaleFaults.ok (order 20)).2 9 none 1
          { riceRequest 100 30 with itemName := some "Basmati" }).2.sales =
        (shop 50).sales ++ [sale] :=
  have h : (recordSale (shop 50) 7 SaleFaults.ok (order 20)).1.status = 201 := by
    simp [recordSale, shop, order, SaleFaults.ok, getStockItem, getFamilyByFamilyId, rice,
      household]
    norm_num
  ⟨h,
   by
    simp [updateStock, riceRequest, recordSale, shop, order, SaleFaults.ok, getStockItem,
      getFamilyByFamilyId, rice, household, insertSale, updateCurrentStock, freshId]
    norm_num,
   by
    simp [updateStock, riceRequest, recordSale, shop, order, SaleFaults.ok, getStockItem,
      getFamilyByFamilyId, rice, household, insertSale, updateCurrentStock, freshId]
    norm_num,
   sale_item_name_kept (shop 50) 7 SaleFaults.ok (order 20) 9 none 1
     { riceRequest 100 30 with itemName := some "Basmati" } h⟩

/-! ### Deletes -/

/-- Under a key that no two rows share, the filter `key ≠ id` removes exactly
one row when a row has the key `id`. -/
theorem length_filter_key_ne {α : Type} (key : α → Nat) (id : Nat) (l : List α)
    (hnd : (l.map key).Nodup) (hex : ∃ r ∈ l, key r = id) :
    (l.filter (fun r => ¬ key r = id)).length + 1 = l.length := by
  induction l with
  | nil =>
    obtain ⟨r, hr, -⟩ := hex
    exact absurd hr (List.not_mem_nil r)
  | cons a l ih =>
    simp only [List.map, List.nodup_cons, List.mem_map, not_exists, not_and] at hnd
    by_cases ha : key a = id
    · have hall : ∀ r ∈ l, decide (¬ key r = id) = true := by
        intro r hr
        simp only [decide_eq_true_eq]
        intro hr'
        exact hnd.1 r hr (hr'.trans ha.symm)
      simp only [List.filter, ha, not_true_eq_false, decide_False, List.length_cons,
        List.filter_eq_self.mpr hall]
    · obtain ⟨r, hr, hrid⟩ := hex
      have hr' : r ∈ l := by
        rcases List.mem_cons.mp hr with rfl | hr'
        · exact absurd hrid ha
        · exact hr'
      simp only [List.filter, ha, not_false_eq_true, decide_True, List.length_cons,
        ih hnd.2 ⟨r, hr', hrid⟩]

theorem filter_key_eq_length_ne_zero {α : Type} (key : α → Nat) (id : Nat) (l : List α)
    (hex : ∃ r ∈ l, key r = id) :
    ¬ (l.filter (fun r => key r = id)).length = 0 := by
  obtain ⟨r, hr, hrid⟩ := hex
  intro h0
  have hmem : r ∈ l.filter (fun r => decide (key r = id)) :=
    List.mem_filter.mpr ⟨hr, by simpa using hrid⟩
  rw [List.length_eq_zero.mp h0] at hmem
  exact absurd hmem (List.not_mem_nil r)

/-- C18: on every store, with the `DELETE` running, deleting a stored family
or a stored stock item is answered 200 whatever the sales table holds; the
table loses the rows under that `id` (exactly one row when the table's ids are
distinct, as its primary key keeps them) and keeps every other row, and the rest
of the store, the sales among it, is unchanged. -/
theorem delete_unconditional (db : Store) (id : Nat) :
    ((∃ r ∈ db.families, r.id = id) →
      deleteFamily db none id =
        (⟨200, .message "Family deleted successfully" none⟩,
         { db with families := db.families.filter (fun r => ¬ r.id = id) }) ∧
      (deleteFamily db none id).2.sales = db.sales ∧
      (∀ r ∈ db.families, r.id ≠ id → r ∈ (deleteFamily db none id).2.families) ∧
      ((db.families.map (fun r => r.id)).Nodup →
        (deleteFamily db none id).2.families.length + 1 = db.families.length)) ∧
    ((∃ r ∈ db.stock_items, r.id = id) →
      deleteStock db none id =
        (⟨200, .message "Stock item deleted successfully" none⟩,
         { db with stock_items := db.stock_items.filter (fun r => ¬ r.id = id) }) ∧
      (deleteStock db none id).2.sales = db.sales ∧
      (∀ r ∈ db.stock_items, r.id ≠ id → r ∈ (deleteStock db none id).2.stock_items) ∧
      ((db.stock_items.map (fun r => r.id)).Nodup →
        (deleteStock db none id).2.stock_items.length + 1 = db.stock_items.length)) := by
  constructor
  · intro hex
    have hlen := filter_key_eq_length_ne_zero (fun r : Family => r.id) id db.families hex
    have heq : deleteFamily db none id =
        (⟨200, .message "Family deleted successfully" none⟩,
         { db with families := db.families.filter (fun r => ¬ r.id = id) }) := by
      simp only [deleteFamily, hlen, if_false]
    refine ⟨heq, deleteFamily_sales db none id, ?_, ?_⟩
    · intro r hr hne
      rw [heq]
      exact List.mem_filter.mpr ⟨hr, by simpa using hne⟩
    · intro hnd
      rw [heq]
      exact length_filter_key_ne (fun r : Family => r.id) id db.families hnd hex
  · intro hex
    have hlen := filter_key_eq_length_ne_zero (fun r : StockItem => r.id) id db.stock_items hex
    have heq : deleteStock db none id =
        (⟨200, .message "Stock item deleted successfully" none⟩,
         { db with stock_items := db.stock_items.filter (fun r => ¬ r.id = id) }) := by
      simp only [deleteStock, hlen, if_false]
    refine ⟨heq, deleteStock_sales db none id, ?_, ?_⟩
    · intro r hr hne
      rw [heq]
      exact List.mem_filter.mpr ⟨hr, by simpa using hne⟩
    · intro hnd
      rw [heq]
      exact length_filter_key_ne (fun r : StockItem => r.id) id db.stock_items hnd hex

/-- Instance of C18: in `ledger` a sale references family `F001` and item 1;
both are deleted, the sale stays as it was, and its `item_id` then names no
stock item. -/
theorem delete_unconditional_witness :
    ledger.sales = [riceSale] ∧
    deleteFamily ledger none 1 =
      (⟨200, .message "Family deleted successfully" none⟩, { ledger with families := [] }) ∧
    deleteStock ledger none 1 =
      (⟨200, .message "Stock item deleted successfully" none⟩,
       { ledger with stock_items := [] }) ∧
    (deleteStock ledger none 1).2.sales = [riceSale] ∧
    getStockItem (deleteStock ledger none 1).2 riceSale.item_id = none ∧
    getFamilyByFamilyId (deleteFamily ledger none 1).2 riceSale.family_id = none ∧
    riceSale.item_name = "Rice" :=
  have hf := (delete_unconditional ledger 1).1 ⟨household, List.mem_singleton.mpr rfl, rfl⟩
  have hs := (delete_unconditional ledger 1).2 ⟨rice 30, List.mem_singleton.mpr rfl, rfl⟩
  ⟨rfl, hf.1, hs.1, hs.2.1, by rw [hs.1]; rfl, by rw [hf.1]; rfl, rfl⟩

/-! ### Fields taken from the client as they are -/

/-- C19: for every successful `recordSale`, the `total_amount` of the row
stored and the `totalAmount` of the body returned are the value the request
supplied; and a request whose `totalAmount` 999 is not quantity 20 times
unitPrice 1 succeeds and is stored with 999. -/
theorem recordSale_totalAmount_as_supplied :
    (∀ (db : Store) (now : Nat) (fl : SaleFaults) (req : SaleRequest),
      (recordSale db now fl req).1.status = 201 →
      ∃ totalAmount sale id familyId itemId itemName quantity unitPrice,
        req.totalAmount = some totalAmount ∧
        (recordSale db now fl req).2.sales = db.sales ++ [sale] ∧
        sale.total_amount = totalAmount ∧
        (recordSale db now fl req).1.body =
          .sale id familyId itemId itemName quantity unitPrice totalAmount) ∧
    recordSale (shop 50) 7 SaleFaults.ok { order 20 with totalAmount := some 999 } =
      (⟨201, .sale 1 "F001" 1 "Rice" 20 1 999⟩,
       { shop 50 with
         stock_items := [{ rice 30 with updated_at := 7 }],
         sales := [{ riceSale with total_amount := 999 }],
         seq_sales := 1 }) ∧
    (999 : ℚ) ≠ 20 * 1 := by
  refine ⟨?_, ?_, by norm_num⟩
  · intro db now fl req h
    obtain ⟨familyId, itemId, quantity, unitPrice, totalAmount, item, fam, hreq, -, -, -, -, -,
      -, -, -, heq⟩ := recordSale_success_inv db now fl req h
    refine ⟨totalAmount,
      { id := (insertSale db now familyId itemId item.item_name quantity unitPrice
            totalAmount).1,
        family_id := familyId, item_id := itemId, item_name := item.item_name,
        quantity := quantity, unit_price := unitPrice, total_amount := totalAmount,
        sale_date := now },
      (insertSale db now familyId itemId item.item_name quantity unitPrice totalAmount).1,
      familyId, itemId, item.item_name, quantity, unitPrice, by rw [hreq], ?_, rfl, ?_⟩
    · rw [heq]
      rfl
    · rw [heq]
  · simp [recordSale, shop, order, SaleFaults.ok, getStockItem, getFamilyByFamilyId, rice,
      household, insertSale, updateCurrentStock, freshId, riceSale]
    norm_num

/-- Instance of C19: the sale of 20 units from `shop 50`. -/
theorem recordSale_totalAmount_as_supplied_witness :
    (recordSale (shop 50) 7 SaleFaults.ok (order 20)).1.status = 201 ∧
    ∃ totalAmount sale id familyId itemId itemName quantity unitPrice,
      (order 20).totalAmount = some totalAmount ∧
      (recordSale (shop 50) 7 SaleFaults.ok (order 20)).2.sales = (shop 50).sales ++ [sale] ∧
      sale.total_amount = totalAmount ∧
      (recordSale (shop 50) 7 SaleFaults.ok (order 20)).1.body =
        .sale id familyId itemId itemName quantity unitPrice totalAmount :=
  have h : (recordSale (shop 50) 7 SaleFaults.ok (order 20)).1.status = 201 := by
    simp [recordSale, shop, order, SaleFaults.ok, getStockItem, getFamilyByFamilyId, rice,
      household]
    norm_num
  ⟨h, recordSale_totalAmount_as_supplied.1 (shop 50) 7 SaleFaults.ok (order 20) h⟩

/-- A family create or update that misses one of familyId, headOfFamily,
numMembers, memberList, address and phone, or carries one of them as the empty
string or as zero, is answered 400 'All fields are required' and leaves the
store unchanged; `aadhaar` and `cardType` play no part in the answer's status. -/
theorem family_missing_field (db : Store) (now : Nat) (fault : Option String) (id : Nat)
    (req : FamilyRequest) :
    ((req.familyId = none ∨ req.familyId = some "" ∨
      req.headOfFamily = none ∨ req.headOfFamily = some "" ∨
      req.numMembers = none ∨ req.numMembers = some 0 ∨
      req.memberList = none ∨
      req.address = none ∨ req.address = some "" ∨
      req.phone = none ∨ req.phone = some "") →
      createFamily db now fault req = (⟨400, .error .allFieldsRequired⟩, db) ∧
      updateFamily db now fault id req = (⟨400, .error .allFieldsRequired⟩, db)) ∧
    (createFamily db now fault { req with aadhaar := none, cardType := none }).1.status =
      (createFamily db now fault req).1.status ∧
    (updateFamily db now fault id { req with aadhaar := none, cardType := none }).1.status =
      (updateFamily db now fault id req).1.status := by
  obtain ⟨fid, h, n, m, a, p, aa, ct⟩ := req
  refine ⟨?_, ?_, ?_⟩
  · intro hmiss
    cases fid <;> cases h <;> cases n <;> cases m <;> cases a <;> cases p <;>
      simp only [createFamily, updateFamily]
    all_goals try (exact ⟨trivial, trivial⟩)
    simp at hmiss
    rw [if_pos hmiss, if_pos hmiss]
    exact ⟨rfl, rfl⟩
  · cases fid <;> cases h <;> cases n <;> cases m <;> cases a <;> cases p <;>
      simp only [createFamily]
    repeat' split
    all_goals rfl
  · cases fid <;> cases h <;> cases n <;> cases m <;> cases a <;> cases p <;>
      simp only [updateFamily]
    repeat' split
    all_goals rfl

/-- C20: the code lets an empty `memberList` through.  A create whose
`memberList` is the empty list, every other field given, is answered 201 and
stored; so is the update of the stored family (200). -/
theorem family_empty_memberList_accepted :
    createFamily Store.empty 7 none { householdRequest with memberList := some [] } =
      (⟨201, .family 1 "F001" "Asha" 2 [] "12 Market Road" "5550100" none none⟩,
       { Store.empty with
         families := [{ household with member_list := [], created_at := 7, updated_at := 7 }],
         seq_families := 1 }) ∧
    updateFamily (shop 50) 7 none 1 { householdRequest with memberList := some [] } =
      (⟨200, .message "Family updated successfully" (some 1)⟩,
       { shop 50 with
         families := [{ household with member_list := [], updated_at := 7 }] }) := by
  constructor
  · simp [createFamily, insertFamilyError, householdRequest, household, Store.empty, freshId]
  · simp [updateFamily, updateFamilyError, householdRequest, household, shop]

/-! ### What a store failure sends to the client -/

/-- C21, as stated, fails: when the item lookup of `recordSale` fails with the
engine text `SQLITE_BUSY: database is locked`, the client is sent 500 with that
very text as the error message. -/
theorem recordSale_sends_engine_text :
    recordSale (shop 50) 7
        { SaleFaults.ok with getItem := some "SQLITE_BUSY: database is locked" } (order 20) =
      (⟨500, .error (.engine "SQLITE_BUSY: database is locked")⟩, shop 50) := by
  simp [recordSale, order, SaleFaults.ok]

/-- C21, amended: a store failure with engine text m is answered 500 with m
itself as the error message by every handler, with two exceptions: the stock
`UPDATE` of `recordSale`, answered 500 'Error updating stock', and a family
`INSERT` or `UPDATE` whose text contains 'UNIQUE constraint failed', answered
400 'Family ID already exists'.  (A statement is reached when the checks before
it pass.) -/
theorem store_failure_messages (db : Store) (now id : Nat) (m : String) :
    -- reading endpoints
    readFamily db (some m) id = ⟨500, .error (.engine m)⟩ ∧
    (∀ familyId, readFamilyByFamilyId db (some m) familyId = ⟨500, .error (.engine m)⟩) ∧
    readStock db (some m) id = ⟨500, .error (.engine m)⟩ ∧
    listFamilies db (some m) = ⟨500, .error (.engine m)⟩ ∧
    listStock db (some m) = ⟨500, .error (.engine m)⟩ ∧
    listSales db (some m) = ⟨500, .error (.engine m)⟩ ∧
    salesToday db now (some m) = ⟨500, .error (.engine m)⟩ ∧
    -- dashboard, query by query
    (∀ fl : StatsFaults, fl.countStock = some m →
      dashboardStats db now fl = ⟨500, .error (.engine m)⟩) ∧
    (∀ fl : StatsFaults, fl.countStock = none → fl.countFamilies = some m →
      dashboardStats db now fl = ⟨500, .error (.engine m)⟩) ∧
    (∀ fl : StatsFaults, fl.countStock = none → fl.countFamilies = none →
      fl.countLowStock = some m → dashboardStats db now fl = ⟨500, .error (.engine m)⟩) ∧
    (∀ fl : StatsFaults, fl.countStock = none → fl.countFamilies = none →
      fl.countLowStock = none → fl.todaySales = some m →
      dashboardStats db now fl = ⟨500, .error (.engine m)⟩) ∧
    -- deletes
    deleteFamily db (some m) id = (⟨500, .error (.engine m)⟩, db) ∧
    deleteStock db (some m) id = (⟨500, .error (.engine m)⟩, db) ∧
    -- stock writes
    (∀ req : StockRequest, req.valid →
      createStock db now (some m) req = (⟨500, .error (.engine m)⟩, db) ∧
      updateStock db now (some m) id req = (⟨500, .error (.engine m)⟩, db)) ∧
    -- family writes
    (∀ req : FamilyRequest, req.complete →
      createFamily db now (some m) req =
        (if includes m "UNIQUE constraint failed" then ⟨400, .error .familyIdExists⟩
         else ⟨500, .error (.engine m)⟩, db) ∧
      updateFamily db now (some m) id req =
        (if includes m "UNIQUE constraint failed" then ⟨400, .error .familyIdExists⟩
         else ⟨500, .error (.engine m)⟩, db)) ∧
    -- the four statements of a sale
    (∀ (fl : SaleFaults) (familyId : String) (itemId : Nat) (quantity unitPrice totalAmount : ℚ),
      familyId ≠ "" → itemId ≠ 0 → quantity ≠ 0 → unitPrice ≠ 0 → totalAmount ≠ 0 →
      (fl.getItem = some m →
        recordSale db now fl
            ⟨some familyId, some itemId, some quantity, some unitPrice, some totalAmount⟩ =
          (⟨500, .error (.engine m)⟩, db)) ∧
      (∀ item, fl.getItem = none → getStockItem db itemId = some item →
        quantity ≤ item.current_stock →
        (fl.getFamily = some m →
          recordSale db now fl
              ⟨some familyId, some itemId, some quantity, some unitPrice, some totalAmount⟩ =
            (⟨500, .error (.engine m)⟩, db)) ∧
        (∀ fam, fl.getFamily = none → getFamilyByFamilyId db familyId = some fam →
          (fl.insertSale = some m →
            recordSale db now fl
                ⟨some familyId, some itemId, some quantity, some unitPrice, some totalAmount⟩ =
              (⟨500, .error (.engine m)⟩, db)) ∧
          (fl.insertSale = none → fl.updateStock = some m →
            (recordSale db now fl
                ⟨some familyId, some itemId, some quantity, some unitPrice,
                  some totalAmount⟩).1 =
              ⟨500, .error .errorUpdatingStock⟩)))) := by
  refine ⟨rfl, fun _ => rfl, rfl, rfl, rfl, rfl, rfl, ?_, ?_, ?_, ?_, rfl, rfl, ?_, ?_, ?_⟩
  · intro fl h1
    simp only [dashboardStats, h1]
  · intro fl h1 h2
    simp only [dashboardStats, h1, h2]
  · intro fl h1 h2 h3
    simp only [dashboardStats, h1, h2, h3]
  · intro fl h1 h2 h3 h4
    simp only [dashboardStats, h1, h2, h3, h4]
  · rintro req ⟨n, c, t, cs, th, rfl, hn, hc, hle⟩
    simp [createStock, updateStock, hn, hc, not_lt.mpr hle]
  · rintro req ⟨f, h, n, ml, a, p, e1, e2, e3, e4, e5, e6, c1, c2, c3, c4, c5⟩
    obtain ⟨fid, ho, no, mo, ao, po, aa, ct⟩ := req
    simp only at e1 e2 e3 e4 e5 e6
    subst e1 e2 e3 e4 e5 e6
    simp only [createFamily, updateFamily, insertFamilyError, updateFamilyError, c1, c2, c3, c4,
      c5, or_self, if_false]
    constructor <;> split <;> rfl
  · intro fl familyId itemId quantity unitPrice totalAmount hf hi hq hu ht
    refine ⟨?_, ?_⟩
    · intro h1
      simp [recordSale, hf, hi, hq, hu, ht, h1]
    · intro item h1 hitem hle
      refine ⟨?_, ?_⟩
      · intro h2
        simp [recordSale, hf, hi, hq, hu, ht, h1, hitem, not_lt.mpr hle, h2]
      · intro fam h2 hfam
        refine ⟨?_, ?_⟩
        · intro h3
          simp [recordSale, hf, hi, hq, hu, ht, h1, hitem, not_lt.mpr hle, h2, hfam, h3]
        · intro h3 h4
          simp [recordSale, hf, hi, hq, hu, ht, h1, hitem, not_lt.mpr hle, h2, hfam, h3, h4]

/-- Instance of C21 amended on `shop 50` with the text `disk I/O error`: a
stock create sends the text, a sale whose stock `UPDATE` fails does not. -/
theorem store_failure_messages_witness :
    createStock (shop 50) 7 (some "disk I/O error") (riceRequest 100 50) =
      (⟨500, .error (.engine "disk I/O error")⟩, shop 50) ∧
    (recordSale (shop 50) 7 { SaleFaults.ok with updateStock := some "disk I/O error" }
        ⟨some "F001", some 1, some 20, some 1, some 20⟩).1 =
      ⟨500, .error .errorUpdatingStock⟩ :=
  have h := store_failure_messages (shop 50) 7 1 "disk I/O error"
  ⟨(h.2.2.2.2.2.2.2.2.2.2.2.2.2.1 (riceRequest 100 50)
      ⟨"Rice", "Grains", 100, 50, 10, rfl, by decide, by decide, by norm_num⟩).1,
   ((((h.2.2.2.2.2.2.2.2.2.2.2.2.2.2.2
      { SaleFaults.ok with updateStock := some "disk I/O error" } "F001" 1 20 1 20
      (by decide) (by decide) (by decide) (by decide) (by decide)).2 (rice 50) rfl
      (by simp [getStockItem, shop, rice]) (by simp [rice]; norm_num)).2 household rfl
      (by simp [getFamilyByFamilyId, shop, household])).2 rfl rfl)⟩

/-! ### Order of the checks of a sale -/

/-- C22: `recordSale` checks the fields, then looks the item up, then checks
the stock, then looks the family up, and answers with the first check that
fails.  With valid fields: when no item has the id the answer is 404 'Stock
item not found' whatever the familyId; when the item is found with less stock
than the quantity the answer is 400 insufficient stock whatever the familyId,
so also for an unknown family; when the item is found with enough stock and no
family has the familyId the answer is 404 'Family not found'.  With a field
missing the answer is 400 'All fields are required' whatever the store. -/
theorem recordSale_check_order (db : Store) (now : Nat) (fl : SaleFaults) (familyId : String)
    (itemId : Nat) (quantity unitPrice totalAmount : ℚ)
    (hf : familyId ≠ "") (hi : itemId ≠ 0) (hq : quantity ≠ 0) (hu : unitPrice ≠ 0)
    (ht : totalAmount ≠ 0) (hget : fl.getItem = none) (hgetf : fl.getFamily = none) :
    (∀ item, getStockItem db itemId = some item → item.current_stock < quantity →
      getFamilyByFamilyId db familyId = none →
      recordSale db now fl
          ⟨some familyId, some itemId, some quantity, some unitPrice, some totalAmount⟩ =
        (⟨400, .error (.insufficientStock item.current_stock)⟩, db)) ∧
    (getStockItem db itemId = none → getFamilyByFamilyId db familyId = none →
      recordSale db now fl
          ⟨some familyId, some itemId, some quantity, some unitPrice, some totalAmount⟩ =
        (⟨404, .error .stockItemNotFound⟩, db)) ∧
    (getStockItem db itemId = none →
      recordSale db now fl
          ⟨some familyId, some itemId, some quantity, some unitPrice, some totalAmount⟩ =
        (⟨404, .error .stockItemNotFound⟩, db)) ∧
    (∀ item, getStockItem db itemId = some item → item.current_stock < quantity →
      recordSale db now fl
          ⟨some familyId, some itemId, some quantity, some unitPrice, some totalAmount⟩ =
        (⟨400, .error (.insufficientStock item.current_stock)⟩, db)) ∧
    (∀ item, getStockItem db itemId = some item → quantity ≤ item.current_stock →
      getFamilyByFamilyId db familyId = none →
      recordSale db now fl
          ⟨some familyId, some itemId, some quantity, some unitPrice, some totalAmount⟩ =
        (⟨404, .error .familyNotFound⟩, db)) ∧
    recordSale db now fl ⟨some familyId, some itemId, none, some unitPrice, some totalAmount⟩ =
      (⟨400, .error .allFieldsRequired⟩, db) := by
  refine ⟨?_, ?_, ?_, ?_, ?_, rfl⟩
  · intro item hitem hlt _
    simp [recordSale, hf, hi, hq, hu, ht, hget, hitem, hlt]
  · intro hitem _
    simp [recordSale, hf, hi, hq, hu, ht, hget, hitem]
  · intro hitem
    simp [recordSale, hf, hi, hq, hu, ht, hget, hitem]
  · intro item hitem hlt
    simp [recordSale, hf, hi, hq, hu, ht, hget, hitem, hlt]
  · intro item hitem hle hfam
    simp [recordSale, hf, hi, hq, hu, ht, hget, hitem, not_lt.mpr hle, hgetf, hfam]

/-- Instance of C22 on `shop 30`: 40 units for the unknown family `F404` is an
insufficient-stock error, and item 2 for the unknown family is an
item-not-found error. -/
theorem recordSale_check_order_witness :
    recordSale (shop 30) 7 SaleFaults.ok ⟨some "F404", some 1, some 40, some 1, some 40⟩ =
      (⟨400, .error (.insufficientStock 30)⟩, shop 30) ∧
    recordSale (shop 30) 7 SaleFaults.ok ⟨some "F404", some 2, some 40, some 1, some 40⟩ =
      (⟨404, .error .stockItemNotFound⟩, shop 30) :=
  ⟨(recordSale_check_order (shop 30) 7 SaleFaults.ok "F404" 1 40 1 40 (by decide) (by decide)
      (by decide) (by decide) (by decide) rfl rfl).1 (rice 30)
      (by simp [getStockItem, shop, rice]) (by simp [rice]; norm_num)
      (by simp [getFamilyByFamilyId, shop, household]),
   (recordSale_check_order (shop 30) 7 SaleFaults.ok "F404" 2 40 1 40 (by decide) (by decide)
      (by decide) (by decide) (by decide) rfl rfl).2.1
      (by simp [getStockItem, shop, rice])
      (by simp [getFamilyByFamilyId, shop, household])⟩

/-! ### Selling the whole stock -/

theorem createFamily_family_id_ne (db : Store) (now : Nat) (fault : Option String)
    (req : FamilyRequest) (hdb : ∀ f ∈ db.families, f.family_id ≠ "") :
    ∀ f ∈ (createFamily db now fault req).2.families, f.family_id ≠ "" := by
  obtain ⟨fid, h, n, m, a, p, aa, ct⟩ := req
  cases fid <;> cases h <;> cases n <;> cases m <;> cases a <;> cases p <;>
    simp only [createFamily]
  all_goals try exact hdb
  rename_i f h n m a p
  split
  · exact hdb
  rename_i hv
  split
  · split <;> exact hdb
  · intro r hr
    simp only [List.mem_append, List.mem_singleton] at hr
    rcases hr with hr | rfl
    · exact hdb r hr
    · exact fun he => hv (Or.inl he)

theorem updateFamily_family_id_ne (db : Store) (now : Nat) (fault : Option String) (id : Nat)
    (req : FamilyRequest) (hdb : ∀ f ∈ db.families, f.family_id ≠ "") :
    ∀ f ∈ (updateFamily db now fault id req).2.families, f.family_id ≠ "" := by
  obtain ⟨fid, h, n, m, a, p, aa, ct⟩ := req
  cases fid <;> cases h <;> cases n <;> cases m <;> cases a <;> cases p <;>
    simp only [updateFamily]
  all_goals try exact hdb
  rename_i f h n m a p
  split
  · exact hdb
  rename_i hv
  split
  · split <;> exact hdb
  split
  · exact hdb
  · intro r hr
    simp only [List.mem_map] at hr
    obtain ⟨r0, hr0, rfl⟩ := hr
    split
    · exact fun he => hv (Or.inl he)
    · exact hdb r0 hr0

theorem createStock_id_ne (db : Store) (now : Nat) (fault : Option String)
    (req : StockRequest) (hdb : ∀ r ∈ db.stock_items, r.id ≠ 0) :
    ∀ r ∈ (createStock db now fault req).2.stock_items, r.id ≠ 0 := by
  obtain ⟨n, c, t, cs, th⟩ := req
  simp only [createStock]
  repeat' split
  all_goals try exact hdb
  intro r hr
  simp only [List.mem_append, List.mem_singleton] at hr
  rcases hr with hr | rfl
  · exact hdb r hr
  · exact Nat.succ_ne_zero _

theorem updateStock_id_ne (db : Store) (now : Nat) (fault : Option String) (id : Nat)
    (req : StockRequest) (hdb : ∀ r ∈ db.stock_items, r.id ≠ 0) :
    ∀ r ∈ (updateStock db now fault id req).2.stock_items, r.id ≠ 0 := by
  obtain ⟨n, c, t, cs, th⟩ := req
  simp only [updateStock]
  repeat' split
  all_goals try exact hdb
  intro r hr
  simp only [List.mem_map] at hr
  obtain ⟨r0, hr0, rfl⟩ := hr
  split
  · exact hdb r0 hr0
  · exact hdb r0 hr0

/-- One request keeps the keys present. -/
theorem step_keysPresent (db : Store) (now : Nat) (op : Op) (hdb : db.keysPresent) :
    (step db now op).2.keysPresent := by
  obtain ⟨hf, hs⟩ := hdb
  cases op with
  | createFamily fault req =>
    exact ⟨createFamily_family_id_ne db now fault req hf,
      by simpa only [step, createFamily_stock_items] using hs⟩
  | updateFamily fault id req =>
    exact ⟨updateFamily_family_id_ne db now fault id req hf,
      by simpa only [step, updateFamily_stock_items] using hs⟩
  | deleteFamily fault id =>
    refine ⟨?_, by simpa only [step, deleteFamily_stock_items] using hs⟩
    simp only [step, deleteFamily]
    repeat' split
    all_goals first
      | exact hf
      | exact fun f hf' => hf f (List.mem_of_mem_filter hf')
  | createStock fault req =>
    exact ⟨by simpa only [step, createStock_families] using hf,
      createStock_id_ne db now fault req hs⟩
  | updateStock fault id req =>
    exact ⟨by simpa only [step, updateStock_families] using hf,
      updateStock_id_ne db now fault id req hs⟩
  | deleteStock fault id =>
    refine ⟨by simpa only [step, deleteStock_families] using hf, ?_⟩
    simp only [step, deleteStock]
    repeat' split
    all_goals first
      | exact hs
      | exact fun r hr => hs r (List.mem_of_mem_filter hr)
  | recordSale fl req =>
    refine ⟨by simpa only [step, recordSale_families] using hf, ?_⟩
    simp only [step]
    rcases recordSale_stock_items db now fl req with h | ⟨itemId, quantity, item, -, -, -, -, h⟩
    · rw [h]; exact hs
    · rw [h]
      intro r hr
      simp only [List.mem_map] at hr
      obtain ⟨r0, hr0, rfl⟩ := hr
      split
      · exact hs r0 hr0
      · exact hs r0 hr0

/-- In every store reached from the empty one the keys are present. -/
theorem run_keysPresent (ops : List (Nat × Op)) (db : Store) (hdb : db.keysPresent) :
    (run db ops).keysPresent := by
  induction ops generalizing db with
  | nil => exact hdb
  | cons p rest ih => exact ih _ (step_keysPresent db p.1 p.2 hdb)

/-- Selling all of an item: the run of `recordSale` in full. -/
theorem recordSale_whole_stock (db : Store) (now : Nat) (familyId : String) (itemId : Nat)
    (unitPrice totalAmount : ℚ) (item : StockItem) (fam : Family)
    (hf : familyId ≠ "") (hi : itemId ≠ 0) (hu : unitPrice ≠ 0) (ht : totalAmount ≠ 0)
    (hitem : getStockItem db itemId = some item) (hpos : 0 < item.current_stock)
    (hfam : getFamilyByFamilyId db familyId = some fam) :
    (recordSale db now SaleFaults.ok
        ⟨some familyId, some itemId, some item.current_stock, some unitPrice,
          some totalAmount⟩).1.status = 201 ∧
    getStockItem (recordSale db now SaleFaults.ok
        ⟨some familyId, some itemId, some item.current_stock, some unitPrice,
          some totalAmount⟩).2 itemId =
      some { item with current_stock := 0, updated_at := now } := by
  have heq : recordSale db now SaleFaults.ok
      ⟨some familyId, some itemId, some item.current_stock, some unitPrice, some totalAmount⟩ =
      (⟨201, .sale (insertSale db now familyId itemId item.item_name item.current_stock
            unitPrice totalAmount).1 familyId itemId item.item_name item.current_stock
            unitPrice totalAmount⟩,
       updateCurrentStock (insertSale db now familyId itemId item.item_name item.current_stock
            unitPrice totalAmount).2 now (item.current_stock - item.current_stock) itemId) := by
    simp [recordSale, SaleFaults.ok, hf, hi, ne_of_gt hpos, hu, ht, hitem, hfam]
  rw [heq]
  refine ⟨rfl, ?_⟩
  rw [getStockItem_updateCurrentStock, getStockItem_insertSale, hitem, sub_self]
  rfl

/-- C23: the quantity may equal the stock.  On every store, for a stored family
and a stored item holding c > 0, a sale of exactly c (unitPrice and totalAmount
non-zero, no store failure) is answered 201 and leaves the item with
`current_stock` 0.  The keys the request names pass the presence check: stated
for every store with that as a premise, and without it for every store reached
from the empty one. -/
theorem recordSale_quantity_equal_stock :
    (∀ (db : Store) (now : Nat) (familyId : String) (itemId : Nat) (unitPrice totalAmount : ℚ)
        (item : StockItem) (fam : Family),
      familyId ≠ "" → itemId ≠ 0 → unitPrice ≠ 0 → totalAmount ≠ 0 →
      getStockItem db itemId = some item → 0 < item.current_stock →
      getFamilyByFamilyId db familyId = some fam →
      (recordSale db now SaleFaults.ok
          ⟨some familyId, some itemId, some item.current_stock, some unitPrice,
            some totalAmount⟩).1.status = 201 ∧
      getStockItem (recordSale db now SaleFaults.ok
          ⟨some familyId, some itemId, some item.current_stock, some unitPrice,
            some totalAmount⟩).2 itemId =
        some { item with current_stock := 0, updated_at := now }) ∧
    (∀ (ops : List (Nat × Op)) (now : Nat) (unitPrice totalAmount : ℚ)
        (item : StockItem) (fam : Family),
      unitPrice ≠ 0 → totalAmount ≠ 0 →
      fam ∈ (run Store.empty ops).families →
      getStockItem (run Store.empty ops) item.id = some item → 0 < item.current_stock →
      (recordSale (run Store.empty ops) now SaleFaults.ok
          ⟨some fam.family_id, some item.id, some item.current_stock, some unitPrice,
            some totalAmount⟩).1.status = 201 ∧
      (getStockItem (recordSale (run Store.empty ops) now SaleFaults.ok
          ⟨some fam.family_id, some item.id, some item.current_stock, some unitPrice,
            some totalAmount⟩).2 item.id).map (fun r => r.current_stock) = some 0) := by
  constructor
  · intro db now familyId itemId unitPrice totalAmount item fam hf hi hu ht hitem hpos hfam
    exact recordSale_whole_stock db now familyId itemId unitPrice totalAmount item fam hf hi hu
      ht hitem hpos hfam
  · intro ops now unitPrice totalAmount item fam hu ht hfam hitem hpos
    have hkeys := run_keysPresent ops Store.empty
      ⟨fun f hf => absurd hf (List.not_mem_nil f), fun r hr => absurd hr (List.not_mem_nil r)⟩
    have hmem : item ∈ (run Store.empty ops).stock_items := List.mem_of_find?_eq_some hitem
    obtain ⟨fam', hfam'⟩ : ∃ fam', getFamilyByFamilyId (run Store.empty ops) fam.family_id =
        some fam' := by
      cases hfind : getFamilyByFamilyId (run Store.empty ops) fam.family_id with
      | some fam' => exact ⟨fam', rfl⟩
      | none =>
        simp only [getFamilyByFamilyId, List.find?_eq_none, decide_eq_true_eq] at hfind
        exact absurd rfl (hfind fam hfam)
    have h := recordSale_whole_stock (run Store.empty ops) now fam.family_id item.id unitPrice
      totalAmount item fam' (hkeys.1 fam hfam) (hkeys.2 item hmem) hu ht hitem hpos hfam'
    exact ⟨h.1, by rw [h.2]; rfl⟩

/-- Instance of C23: selling all 30 units of `shop 30`. -/
theorem recordSale_quantity_equal_stock_witness :
    (recordSale (shop 30) 7 SaleFaults.ok
        ⟨some "F001", some 1, some (rice 30).current_stock, some 1, some 30⟩).1.status = 201 ∧
    getStockItem (recordSale (shop 30) 7 SaleFaults.ok
        ⟨some "F001", some 1, some (rice 30).current_stock, some 1, some 30⟩).2 1 =
      some { rice 30 with current_stock := 0, updated_at := 7 } :=
  recordSale_quantity_equal_stock.1 (shop 30) 7 "F001" 1 1 30 (rice 30) household
    (by decide) (by decide) (by decide) (by decide)
    (by simp [getStockItem, shop, rice]) (by simp [rice]) (by simp [getFamilyByFamilyId, shop, household])

/-! ### Unknown ids -/

theorem filter_key_eq_nil {α : Type} (key : α → Nat) (id : Nat) (l : List α)
    (hno : ∀ r ∈ l, key r ≠ id) : l.filter (fun r => decide (key r = id)) = [] := by
  rw [List.filter_eq_nil_iff]
  intro r hr
  simpa using hno r hr

/-- C24: on every store, when no stored family (no stored stock item) has the
id, a read by id, an update that passes the field checks and a delete are
answered 404 'Family not found' ('Stock item not found'), and the update and
the delete leave the store unchanged; the reads return a response only.  (The
statement itself running.) -/
theorem unknown_id_not_found (db : Store) (now id : Nat) :
    ((∀ r ∈ db.families, r.id ≠ id) →
      readFamily db none id = ⟨404, .error .familyNotFound⟩ ∧
      (∀ req : FamilyRequest, req.complete →
        updateFamily db now none id req = (⟨404, .error .familyNotFound⟩, db)) ∧
      deleteFamily db none id = (⟨404, .error .familyNotFound⟩, db)) ∧
    ((∀ r ∈ db.stock_items, r.id ≠ id) →
      readStock db none id = ⟨404, .error .stockItemNotFound⟩ ∧
      (∀ req : StockRequest, req.valid →
        updateStock db now none id req = (⟨404, .error .stockItemNotFound⟩, db)) ∧
      deleteStock db none id = (⟨404, .error .stockItemNotFound⟩, db)) := by
  constructor
  · intro hno
    have hnil := filter_key_eq_nil (fun r : Family => r.id) id db.families hno
    have hfind : db.families.find? (fun r => decide (r.id = id)) = none := by
      simp only [List.find?_eq_none, decide_eq_true_eq]
      exact hno
    have hany : db.families.any (fun r => decide (r.id = id)) = false := by
      rw [List.any_eq_false]
      intro r hr
      simpa using hno r hr
    refine ⟨?_, ?_, ?_⟩
    · simp only [readFamily, hfind]
    · rintro req ⟨f, h, n, ml, a, p, e1, e2, e3, e4, e5, e6, c1, c2, c3, c4, c5⟩
      obtain ⟨fid, ho, no, mo, ao, po, aa, ct⟩ := req
      simp only at e1 e2 e3 e4 e5 e6
      subst e1 e2 e3 e4 e5 e6
      simp [updateFamily, updateFamilyError, c1, c2, c3, c4, c5, hany, hnil]
    · simp [deleteFamily, hnil]
  · intro hno
    have hnil := filter_key_eq_nil (fun r : StockItem => r.id) id db.stock_items hno
    have hfind : getStockItem db id = none := by
      simp only [getStockItem, List.find?_eq_none, decide_eq_true_eq]
      exact hno
    refine ⟨?_, ?_, ?_⟩
    · simp only [readStock, hfind]
    · rintro req ⟨n, c, t, cs, th, rfl, hn, hc, hle⟩
      simp [updateStock, hn, hc, not_lt.mpr hle, hnil]
    · simp [deleteStock, hnil]

/-- Instance of C24: id 9 in `shop 50`, whose family and item have id 1. -/
theorem unknown_id_not_found_witness :
    readFamily (shop 50) none 9 = ⟨404, .error .familyNotFound⟩ ∧
    updateFamily (shop 50) 7 none 9 householdRequest =
      (⟨404, .error .familyNotFound⟩, shop 50) ∧
    deleteFamily (shop 50) none 9 = (⟨404, .error .familyNotFound⟩, shop 50) ∧
    readStock (shop 50) none 9 = ⟨404, .error .stockItemNotFound⟩ ∧
    updateStock (shop 50) 7 none 9 (riceRequest 100 50) =
      (⟨404, .error .stockItemNotFound⟩, shop 50) ∧
    deleteStock (shop 50) none 9 = (⟨404, .error .stockItemNotFound⟩, shop 50) :=
  have hf := (unknown_id_not_found (shop 50) 7 9).1 (by
    intro r hr
    simp only [shop, List.mem_singleton] at hr
    subst hr
    decide)
  have hs := (unknown_id_not_found (shop 50) 7 9).2 (by
    intro r hr
    simp only [shop, List.mem_singleton] at hr
    subst hr
    decide)
  ⟨hf.1,
   hf.2.1 householdRequest
     ⟨"F001", "Asha", 2, ["Asha", "Ravi"], "12 Market Road", "5550100", rfl, rfl, rfl, rfl, rfl,
       rfl, by decide, by decide, by decide, by decide, by decide⟩,
   hf.2.2, hs.1,
   hs.2.1 (riceRequest 100 50)
     ⟨"Rice", "Grains", 100, 50, 10, rfl, by decide, by decide, by norm_num⟩,
   hs.2.2⟩

/-! ### What the race between two sales does -/

/-- One store call of a request in flight keeps the stock of the items under
id `i` non-negative. -/
theorem SaleTask.step_nonneg_at (i : Nat) (c : SaleCall) (db : Store) (t : SaleTask)
    (hdb : ∀ r ∈ db.stock_items, r.id = i → 0 ≤ r.current_stock) (ht : t.checked) :
    (∀ r ∈ (t.step c db).2.stock_items, r.id = i → 0 ≤ r.current_stock) ∧
    (t.step c db).1.checked := by
  cases t with
  | start =>
    simp only [SaleTask.step]
    repeat' split
    all_goals first
      | exact ⟨hdb, trivial⟩
      | exact ⟨hdb, not_lt.mp (by assumption)⟩
  | awaitFamily a item =>
    simp only [SaleTask.step]
    repeat' split
    all_goals first
      | exact ⟨hdb, trivial⟩
      | exact ⟨hdb, ht⟩
  | awaitInsert a item =>
    simp only [SaleTask.step]
    repeat' split
    all_goals first
      | exact ⟨hdb, trivial⟩
      | exact ⟨hdb, ht⟩
  | awaitUpdate a item lastID =>
    simp only [SaleTask.step]
    split
    · exact ⟨hdb, trivial⟩
    · refine ⟨?_, trivial⟩
      intro r hr
      simp only [updateCurrentStock, List.mem_map] at hr
      obtain ⟨r0, hr0, rfl⟩ := hr
      split
      · exact fun _ => sub_nonneg.mpr ht
      · exact hdb r0 hr0
  | done res => exact ⟨hdb, trivial⟩

/-- In every interleaving of two sales, the items under id `i` that held no
negative stock before hold none after. -/
theorem interleave_stock_nonneg_at (i : Nat) (c1 c2 : SaleCall) (db : Store)
    (hdb : ∀ r ∈ db.stock_items, r.id = i → 0 ≤ r.current_stock) (sched : List Bool) :
    ∀ r ∈ (interleave c1 c2 db sched).db.stock_items, r.id = i → 0 ≤ r.current_stock := by
  have key : ∀ (sched : List Bool) (s : Race),
      (∀ r ∈ s.db.stock_items, r.id = i → 0 ≤ r.current_stock) → s.t1.checked →
      s.t2.checked →
      ∀ r ∈ (sched.foldl (Race.step c1 c2) s).db.stock_items, r.id = i →
        0 ≤ r.current_stock := by
    intro sched
    induction sched with
    | nil => intro s hs _ _; exact hs
    | cons b rest ih =>
      intro s hs h1 h2
      simp only [List.foldl]
      cases b with
      | true =>
        have h := SaleTask.step_nonneg_at i c1 s.db s.t1 hs h1
        exact ih _ (by simpa only [Race.step, if_true] using h.1)
          (by simpa only [Race.step, if_true] using h.2)
          (by simpa only [Race.step, if_true] using h2)
      | false =>
        have h := SaleTask.step_nonneg_at i c2 s.db s.t2 hs h2
        exact ih _ (by simpa only [Race.step, Bool.false_eq_true, if_false] using h.1)
          (by simpa only [Race.step, Bool.false_eq_true, if_false] using h1)
          (by simpa only [Race.step, Bool.false_eq_true, if_false] using h.2)
  exact key sched _ hdb trivial trivial

/-- C25, as stated, fails: no interleaving of the store calls of two sales
takes an item from a non-negative `current_stock` to a negative one.  Each call
writes the stock it read minus its quantity, and it only gets there with its
quantity at most the stock it read. -/
theorem no_interleaving_goes_negative :
    ¬ ∃ (db : Store) (c1 c2 : SaleCall) (sched : List Bool) (i : Nat),
        (∀ r ∈ db.stock_items, r.id = i → 0 ≤ r.current_stock) ∧
        ∃ r ∈ (interleave c1 c2 db sched).db.stock_items, r.id = i ∧ r.current_stock < 0 := by
  rintro ⟨db, c1, c2, sched, i, hdb, r, hr, hid, hneg⟩
  exact absurd (interleave_stock_nonneg_at i c1 c2 db hdb sched r hr hid) (not_le.mpr hneg)

/-- C25, amended: two concurrent sales against one item can both pass the
sufficiency check before either writes, and then both succeed although their
quantities add up to more than the stock: with sales of 20 and 25 against 30,
after one store call each both hold the row with 30 and have passed the check;
run on in turns both are answered 201 and the item is left with 5, the write of
30 - 25 over the write of 30 - 20.  The stock does not go negative: in every
interleaving, an item whose `current_stock` was at least 0 stays so. -/
theorem concurrent_sales_lose_an_update :
    interleave ⟨7, SaleFaults.ok, order 20⟩ ⟨8, SaleFaults.ok, order 25⟩ (shop 30)
        [true, false] =
      { db := shop 30,
        t1 := .awaitFamily ⟨"F001", 1, 20, 1, 20⟩ (rice 30),
        t2 := .awaitFamily ⟨"F001", 1, 25, 1, 25⟩ (rice 30) } ∧
    interleave ⟨7, SaleFaults.ok, order 20⟩ ⟨8, SaleFaults.ok, order 25⟩ (shop 30)
        alternating =
      { db :=
          { families := [household],
            stock_items := [{ rice 5 with updated_at := 8 }],
            sales := [riceSale, { riceSale with id := 2, quantity := 25, total_amount := 25,
                                                 sale_date := 8 }],
            seq_families := 1, seq_stock_items := 1, seq_sales := 2 },
        t1 := .done ⟨201, .sale 1 "F001" 1 "Rice" 20 1 20⟩,
        t2 := .done ⟨201, .sale 2 "F001" 1 "Rice" 25 1 25⟩ } ∧
    ((30 : ℚ) < 20 + 25) ∧
    ∀ (db : Store) (c1 c2 : SaleCall) (sched : List Bool) (i : Nat),
      (∀ r ∈ db.stock_items, r.id = i → 0 ≤ r.current_stock) →
      ∀ r ∈ (interleave c1 c2 db sched).db.stock_items, r.id = i → 0 ≤ r.current_stock := by
  refine ⟨?_, ?_, by norm_num, ?_⟩
  · simp [interleave, Race.step, SaleTask.step, shop, order, SaleFaults.ok, getStockItem, rice]
    norm_num
  · simp [interleave, alternating, Race.step, SaleTask.step, shop, order, SaleFaults.ok,
      getStockItem, getFamilyByFamilyId, rice, household, insertSale, updateCurrentStock, freshId,
      riceSale]
    norm_num
  · intro db c1 c2 sched i hdb
    exact interleave_stock_nonneg_at i c1 c2 db hdb sched

/-! ### Quantities and the frame of a sale -/

/-- The row of the item after a successful sale. -/
theorem recordSale_row_after (db : Store) (now : Nat) (fl : SaleFaults) (req : SaleRequest)
    (h : (recordSale db now fl req).1.status = 201) :
    ∃ itemId quantity item,
      req.itemId = some itemId ∧ req.quantity = some quantity ∧
      getStockItem db itemId = some item ∧ quantity ≤ item.current_stock ∧
      getStockItem (recordSale db now fl req).2 itemId =
        some { item with current_stock := item.current_stock - quantity, updated_at := now } := by
  obtain ⟨familyId, itemId, quantity, unitPrice, totalAmount, item, fam, hreq, -, -, -, -, -,
    hitem, hle, -, heq⟩ := recordSale_success_inv db now fl req h
  refine ⟨itemId, quantity, item, by rw [hreq], by rw [hreq], hitem, hle, ?_⟩
  rw [heq]
  simp only [getStockItem_updateCurrentStock, getStockItem_insertSale, hitem, Option.map]

/-- C26: `recordSale` accepts negative quantities.  Every successful sale with
a quantity below 0 leaves the item with more stock than before; and on a store
whose item holds 98 of a capacity of 100, a sale of -5 to a registered family
is answered 201 and leaves 103, above the capacity. -/
theorem recordSale_negative_quantity :
    (∀ (db : Store) (now : Nat) (fl : SaleFaults) (req : SaleRequest) (quantity : ℚ),
      (recordSale db now fl req).1.status = 201 → req.quantity = some quantity →
      quantity < 0 →
      ∃ itemId item row,
        req.itemId = some itemId ∧ getStockItem db itemId = some item ∧
        getStockItem (recordSale db now fl req).2 itemId = some row ∧
        item.current_stock < row.current_stock) ∧
    recordSale (shop 98) 7 SaleFaults.ok (order (-5)) =
      (⟨201, .sale 1 "F001" 1 "Rice" (-5) 1 (-5)⟩,
       { shop 98 with
         stock_items := [{ rice 103 with updated_at := 7 }],
         sales := [{ riceSale with quantity := -5, total_amount := -5 }],
         seq_sales := 1 }) ∧
    (rice 98).current_stock < (rice 103).current_stock ∧
    (rice 103).total_stock < (rice 103).current_stock := by
  refine ⟨?_, ?_, ?_, ?_⟩
  · intro db now fl req quantity h hq hneg
    obtain ⟨itemId, q, item, hid, hq', hitem, -, hrow⟩ := recordSale_row_after db now fl req h
    rw [hq] at hq'
    simp only [Option.some.injEq] at hq'
    subst hq'
    exact ⟨itemId, item, _, hid, hitem, hrow, by simp only; linarith⟩
  · simp [recordSale, shop, order, SaleFaults.ok, getStockItem, getFamilyByFamilyId, rice,
      household, insertSale, updateCurrentStock, freshId, riceSale]
    norm_num
  · simp [rice]; norm_num
  · simp [rice]; norm_num

/-- C27: handled on its own, `recordSale` keeps the stock non-negative: after
every successful sale the item holds its stock before minus the quantity, and
that is at least 0, the quantity having passed the sufficiency check (so also
when the stock before was at least 0). -/
theorem recordSale_keeps_stock_nonneg (db : Store) (now : Nat) (fl : SaleFaults)
    (req : SaleRequest) (h : (recordSale db now fl req).1.status = 201) :
    ∃ itemId item row,
      req.itemId = some itemId ∧ getStockItem db itemId = some item ∧
      getStockItem (recordSale db now fl req).2 itemId = some row ∧
      (0 ≤ item.current_stock → 0 ≤ row.current_stock) ∧ 0 ≤ row.current_stock := by
  obtain ⟨itemId, q, item, hid, -, hitem, hle, hrow⟩ := recordSale_row_after db now fl req h
  have h0 : (0 : ℚ) ≤ item.current_stock - q := sub_nonneg.mpr hle
  exact ⟨itemId, item, _, hid, hitem, hrow, fun _ => h0, h0⟩

/-- Instance of C27: selling 20 of the 50 units in `shop 50`. -/
theorem recordSale_keeps_stock_nonneg_witness :
    (recordSale (shop 50) 7 SaleFaults.ok (order 20)).1.status = 201 ∧
    ∃ itemId item row,
      (order 20).itemId = some itemId ∧ getStockItem (shop 50) itemId = some item ∧
      getStockItem (recordSale (shop 50) 7 SaleFaults.ok (order 20)).2 itemId = some row ∧
      (0 ≤ item.current_stock → 0 ≤ row.current_stock) ∧ 0 ≤ row.current_stock :=
  have h : (recordSale (shop 50) 7 SaleFaults.ok (order 20)).1.status = 201 := by
    simp [recordSale, shop, order, SaleFaults.ok, getStockItem, getFamilyByFamilyId, rice,
      household]
    norm_num
  ⟨h, recordSale_keeps_stock_nonneg (shop 50) 7 SaleFaults.ok (order 20) h⟩

/-- C28: a successful `recordSale` leaves the families as they were, and the
stock table as it was but for `current_stock` and `updated_at` of the rows
under the item's id: every other stock item is kept as it is, and the item
keeps its name, category, `total_stock` and threshold.  The rest of the change
is the sales table (and its key counter). -/
theorem recordSale_frame (db : Store) (now : Nat) (fl : SaleFaults) (req : SaleRequest)
    (h : (recordSale db now fl req).1.status = 201) :
    ∃ itemId quantity item,
      req.itemId = some itemId ∧ req.quantity = some quantity ∧
      getStockItem db itemId = some item ∧
      (recordSale db now fl req).2.families = db.families ∧
      (recordSale db now fl req).2.seq_families = db.seq_families ∧
      (recordSale db now fl req).2.seq_stock_items = db.seq_stock_items ∧
      (recordSale db now fl req).2.stock_items = db.stock_items.map (fun r =>
        if r.id = itemId then
          { r with current_stock := item.current_stock - quantity, updated_at := now }
        else r) ∧
      (∀ r ∈ db.stock_items, r.id ≠ itemId → r ∈ (recordSale db now fl req).2.stock_items) ∧
      (∀ r ∈ (recordSale db now fl req).2.stock_items, r.id ≠ itemId → r ∈ db.stock_items) ∧
      (∀ r ∈ (recordSale db now fl req).2.stock_items, r.id = itemId →
        ∃ r0 ∈ db.stock_items, r0.id = itemId ∧ r.item_name = r0.item_name ∧
          r.category = r0.category ∧ r.total_stock = r0.total_stock ∧
          r.threshold = r0.threshold ∧ r.created_at = r0.created_at) := by
  obtain ⟨familyId, itemId, quantity, unitPrice, totalAmount, item, fam, hreq, -, -, -, -, -,
    hitem, -, -, heq⟩ := recordSale_success_inv db now fl req h
  have hstock : (recordSale db now fl req).2.stock_items = db.stock_items.map (fun r =>
      if r.id = itemId then
        { r with current_stock := item.current_stock - quantity, updated_at := now }
      else r) := by
    rw [heq]
    rfl
  refine ⟨itemId, quantity, item, by rw [hreq], by rw [hreq], hitem, by rw [heq]; rfl,
    by rw [heq]; rfl, by rw [heq]; rfl, hstock, ?_, ?_, ?_⟩
  · intro r hr hne
    rw [hstock]
    exact List.mem_map.mpr ⟨r, hr, by simp only [hne, if_false]⟩
  · intro r hr hne
    rw [hstock] at hr
    obtain ⟨r0, hr0, rfl⟩ := List.mem_map.mp hr
    by_cases h0 : r0.id = itemId
    · simp only [h0, if_true] at hne
      exact absurd rfl hne
    · simpa only [h0, if_false] using hr0
  · intro r hr hid
    rw [hstock] at hr
    obtain ⟨r0, hr0, rfl⟩ := List.mem_map.mp hr
    by_cases h0 : r0.id = itemId
    · refine ⟨r0, hr0, h0, ?_⟩
      simp only [h0, if_true, and_self]
    · simp only [h0, if_false] at hid

/-- Instance of C28: selling 20 of the 50 units in `street 50`. -/
theorem recordSale_frame_witness :
    (recordSale (street 50) 7 SaleFaults.ok (order 20)).1.status = 201 ∧
    (recordSale (street 50) 7 SaleFaults.ok (order 20)).2.families = (street 50).families ∧
    (recordSale (street 50) 7 SaleFaults.ok (order 20)).2.stock_items =
      [{ rice 30 with updated_at := 7 }] :=
  have h : (recordSale (street 50) 7 SaleFaults.ok (order 20)).1.status = 201 := by
    simp [recordSale, street, shop, order, SaleFaults.ok, getStockItem, getFamilyByFamilyId,
      rice, household]
    norm_num
  have hf := recordSale_frame (street 50) 7 SaleFaults.ok (order 20) h
  ⟨h, by
    obtain ⟨_, _, _, -, -, -, hfam, -⟩ := hf
    exact hfam, by
    simp [recordSale, street, shop, order, SaleFaults.ok, getStockItem, getFamilyByFamilyId,
      rice, household, insertSale, updateCurrentStock, freshId]
    norm_num⟩

/-! ### Today's sales -/

/-- C29: on every store and at every time (the queries running), `GET
/api/sales/today` returns the `todaySalesAmount` and the `todaySalesCount` that
`GET /api/dashboard/stats` returns. -/
theorem salesToday_eq_dashboard (db : Store) (now : Nat) :
    ∃ amount count totalStockItems registeredFamilies lowStockItems,
      salesToday db now none = ⟨200, .todaySales amount count⟩ ∧
      dashboardStats db now StatsFaults.ok =
        ⟨200, .stats totalStockItems registeredFamilies lowStockItems amount count⟩ ∧
      amount = sumTotalAmount (todaySales db now) ∧ count = (todaySales db now).length :=
  ⟨sumTotalAmount (todaySales db now), (todaySales db now).length, db.stock_items.length,
    db.families.length, (lowStock db).length,
    by simp only [salesToday, orZero_eq], dashboardStats_ok db now, rfl, rfl⟩

/-! ### The sale form -/

/-- Rounding leaves an integer as it is. -/
theorem roundTiesToEven_intCast (n : ℤ) : roundTiesToEven (n : ℚ) = n := by
  simp [roundTiesToEven]

/-- Rounding does not go below the floor. -/
theorem floor_le_roundTiesToEven (y : ℚ) : ⌊y⌋ ≤ roundTiesToEven y := by
  unfold roundTiesToEven
  split_ifs <;> omega

/-- Rounding moves a number by at most one half. -/
theorem abs_roundTiesToEven_sub_le (y : ℚ) : |(roundTiesToEven y : ℚ) - y| ≤ 1 / 2 := by
  have h1 := Int.floor_le y
  have h2 := Int.lt_floor_add_one y
  unfold roundTiesToEven
  split_ifs with a b c
  · rw [abs_le]; constructor <;> linarith
  · push_cast; rw [abs_le]; constructor <;> linarith
  · rw [abs_le]; constructor <;> linarith
  · push_cast; rw [abs_le]; constructor <;> linarith

/-- The unit in the last place is positive. -/
theorem ulp_pos (x : ℚ) : 0 < ulp x := by
  unfold ulp
  positivity

/-- A finite rounded result is within half a unit in the last place of the
exact one. -/
theorem toDouble_error (x t : ℚ) (h : toDouble x = .finite t) : |t - x| ≤ ulp x / 2 := by
  have hu := ulp_pos x
  unfold toDouble at h
  simp only at h
  split_ifs at h
  injection h with h
  subst h
  have h3 := abs_roundTiesToEven_sub_le (x / ulp x)
  have h4 : (roundTiesToEven (x / ulp x) : ℚ) * ulp x - x
      = ((roundTiesToEven (x / ulp x) : ℚ) - x / ulp x) * ulp x := by
    field_simp
  rw [h4, abs_mul, abs_of_pos hu]
  calc |(roundTiesToEven (x / ulp x) : ℚ) - x / ulp x| * ulp x ≤ 1 / 2 * ulp x :=
        mul_le_mul_of_nonneg_right h3 hu.le
    _ = ulp x / 2 := by ring

/-- The least significand of a binade times its unit is the power of two that
opens the binade. -/
theorem two_pow_mul_ulp (e : ℤ) : ((2 ^ 52 : ℤ) : ℚ) * 2 ^ (e - 52) = 2 ^ e := by
  have h : ((2 ^ 52 : ℤ) : ℚ) = (2 : ℚ) ^ (52 : ℤ) := by norm_cast
  rw [h, ← zpow_add₀ (by norm_num : (2 : ℚ) ≠ 0)]
  congr 1
  ring

/-- An exact result of `2 ^ 1024` or more is rounded to `Infinity`. -/
theorem toDouble_overflow (x : ℚ) (h : 2 ^ 1024 ≤ x) : toDouble x = .infinity false := by
  have hx : (0 : ℚ) < x := lt_of_lt_of_le (by positivity) h
  have habs : |x| = x := abs_of_pos hx
  have hlog : (1024 : ℤ) ≤ Int.log 2 |x| := by
    rw [habs]
    refine (Int.zpow_le_iff_le_log (b := 2) (by norm_num) hx (x := 1024)).mp ?_
    have c : ((2 : ℕ) : ℚ) = 2 := Nat.cast_ofNat
    rw [c, zpow_ofNat]
    exact h
  have he : exponent x = Int.log 2 |x| := by
    unfold exponent
    exact max_eq_left (by omega)
  have hu := ulp_pos x
  have hle : (2 : ℚ) ^ (Int.log 2 |x|) ≤ x := by
    have := Int.zpow_log_le_self (b := 2) (r := x) (by norm_num) hx
    rw [habs]
    exact_mod_cast this
  have hy : ((2 ^ 52 : ℤ) : ℚ) ≤ x / ulp x := by
    rw [le_div_iff₀ hu]
    unfold ulp
    rw [he]
    rw [two_pow_mul_ulp]
    exact hle
  have hf : (2 ^ 52 : ℤ) ≤ roundTiesToEven (x / ulp x) :=
    le_trans (Int.le_floor.mpr hy) (floor_le_roundTiesToEven _)
  have hr : (2 : ℚ) ^ 1024 ≤ (roundTiesToEven (x / ulp x) : ℚ) * ulp x := by
    have h1 : ((2 ^ 52 : ℤ) : ℚ) ≤ (roundTiesToEven (x / ulp x) : ℚ) := by exact_mod_cast hf
    calc (2 : ℚ) ^ 1024 ≤ 2 ^ (Int.log 2 |x|) := by
          have : (2 : ℚ) ^ (1024 : ℤ) ≤ 2 ^ (Int.log 2 |x|) :=
            zpow_le_zpow_right₀ (by norm_num) hlog
          rw [← zpow_natCast]
          exact this
      _ = ((2 ^ 52 : ℤ) : ℚ) * ulp x := by
          unfold ulp
          rw [he, two_pow_mul_ulp]
      _ ≤ (roundTiesToEven (x / ulp x) : ℚ) * ulp x := mul_le_mul_of_nonneg_right h1 hu.le
  unfold toDouble
  simp only
  rw [if_pos (le_trans hr (le_abs_self _))]
  simp [not_lt.mpr hx.le]

/-- An exact result that is a double (a significand below `2 ^ 53` in absolute
value at an exponent of -1074 or more, below `2 ^ 1024` in absolute value) is
returned as it is. -/
theorem toDouble_representable (x : ℚ) (m k : ℤ) (hm : |m| < 2 ^ 53) (hk : -1074 ≤ k)
    (hx : x = m * 2 ^ k) (hlt : |x| < 2 ^ 1024) : toDouble x = .finite x := by
  rcases eq_or_ne x 0 with h0 | h0
  · subst h0
    simp [toDouble, roundTiesToEven]
  have hu := ulp_pos x
  have hek : exponent x - 52 ≤ k := by
    unfold exponent
    · have hpos : 0 < |x| := abs_pos.mpr h0
      have hlog : Int.log 2 |x| < 53 + k := by
        refine (Int.lt_zpow_iff_log_lt (b := 2) (by norm_num) hpos).mp ?_
        rw [hx, abs_mul, abs_of_pos (by positivity : (0 : ℚ) < 2 ^ k), Nat.cast_ofNat,
          zpow_add₀ (by norm_num : (2 : ℚ) ≠ 0)]
        have h53 : |(m : ℚ)| < 2 ^ (53 : ℤ) := by
          have : ((|m| : ℤ) : ℚ) < ((2 ^ 53 : ℤ) : ℚ) := by exact_mod_cast hm
          rw [Int.cast_abs] at this
          calc |(m : ℚ)| < ((2 ^ 53 : ℤ) : ℚ) := this
            _ = 2 ^ (53 : ℤ) := by norm_cast
        exact mul_lt_mul_of_pos_right h53 (by positivity)
      rcases max_cases (Int.log 2 |x|) (-1022) with ⟨h, _⟩ | ⟨h, _⟩ <;> rw [h] <;> omega
  obtain ⟨n, hn⟩ := Int.eq_ofNat_of_zero_le (sub_nonneg.mpr hek)
  have hdiv : x / ulp x = ((m * 2 ^ n : ℤ) : ℚ) := by
    rw [div_eq_iff hu.ne.symm]
    unfold ulp
    have hk2 : k = (n : ℤ) + (exponent x - 52) := by omega
    conv_lhs => rw [hx, hk2]
    rw [zpow_add₀ (by norm_num : (2 : ℚ) ≠ 0), zpow_natCast]
    push_cast
    ring
  have hr : (roundTiesToEven (x / ulp x) : ℚ) * ulp x = x := by
    rw [hdiv, roundTiesToEven_intCast, ← hdiv]
    field_simp
  unfold toDouble
  simp only
  rw [hr, if_neg (not_le.mpr hlt)]

/-- The doubles `0.1` and `3` have the product `0.30000000000000004`: their exact
product lies half way between two doubles and goes to the even one. -/
theorem toDouble_tenth_times_three :
    toDouble (3602879701896397 / 2 ^ 55 * 3) = .finite (5404319552844596 / 2 ^ 54) := by
  have c : ((2 : ℕ) : ℚ) = 2 := Nat.cast_ofNat
  have habs : |(3602879701896397 / 2 ^ 55 * 3 : ℚ)| = 3602879701896397 / 2 ^ 55 * 3 :=
    abs_of_pos (by positivity)
  have hlog : Int.log 2 |(3602879701896397 / 2 ^ 55 * 3 : ℚ)| = -2 := by
    rw [habs]
    apply le_antisymm
    · have h : Int.log 2 (3602879701896397 / 2 ^ 55 * 3 : ℚ) < -1 := by
        refine (Int.lt_zpow_iff_log_lt (b := 2) (by norm_num) (by positivity)).mp ?_
        rw [c]
        norm_num
      omega
    · refine (Int.zpow_le_iff_le_log (b := 2) (by norm_num) (by positivity)).mp ?_
      rw [c]
      norm_num
  have hulp : ulp (3602879701896397 / 2 ^ 55 * 3) = 1 / 2 ^ 54 := by
    unfold ulp exponent
    rw [hlog]
    norm_num
  have hfloor : ⌊(10808639105689191 / 2 : ℚ)⌋ = 5404319552844595 := by
    rw [Int.floor_eq_iff]
    constructor <;> norm_num
  have hround : roundTiesToEven (10808639105689191 / 2) = 5404319552844596 := by
    unfold roundTiesToEven
    rw [hfloor]
    norm_num
  have hdiv : (3602879701896397 / 2 ^ 55 * 3 : ℚ) / (1 / 2 ^ 54) = 10808639105689191 / 2 := by
    norm_num
  unfold toDouble
  simp only
  rw [hulp, hdiv, hround, if_neg]
  · norm_num
  · rw [not_le]
    calc |((5404319552844596 : ℤ) : ℚ) * (1 / 2 ^ 54)| < 1 := by
          rw [abs_of_pos (by positivity)]
          norm_num
      _ ≤ 2 ^ 1024 := one_le_pow₀ (by norm_num)

/-- A form with positive finite quantity and price posts them with their double
product. -/
theorem handleSaleSubmit_pos (familyId : String) (itemId : Option Nat) (q p : ℚ)
    (hq : 0 < q) (hp : 0 < p) :
    handleSaleSubmit ⟨familyId, itemId, .finite q, .finite p⟩ =
      some ⟨some familyId, itemId, some q, some p, (toDouble (q * p)).toJSON⟩ := by
  simp [handleSaleSubmit, JSNumber.leZero, JSNumber.mul, JSNumber.toJSON, not_le.mpr hq,
    not_le.mpr hp]

/-- A form whose finite quantity or price is zero or less posts nothing. -/
theorem handleSaleSubmit_nonpos (familyId : String) (itemId : Option Nat) (q p : ℚ)
    (h : q ≤ 0 ∨ p ≤ 0) :
    handleSaleSubmit ⟨familyId, itemId, .finite q, .finite p⟩ = none := by
  rcases h with h | h
  · simp [handleSaleSubmit, JSNumber.leZero, h]
  · simp [handleSaleSubmit, JSNumber.leZero, h]

/-- C30 as stated fails on the doubles.  Quantity `1e200` and price `1e200` (the
double 5883593420661338 × 2^612) are positive and the form posts them, with
totalAmount `null`: their product is `Infinity`.  Quantity `0.1` (the double
3602879701896397 / 2^55) at price 3 is posted with totalAmount
`0.30000000000000004` (5404319552844596 / 2^54), which is not quantity ×
unitPrice. -/
theorem handleSaleSubmit_total_not_product :
    handleSaleSubmit
        ⟨"F001", some 1, .finite (5883593420661338 * 2 ^ 612),
          .finite (5883593420661338 * 2 ^ 612)⟩ =
      some ⟨some "F001", some 1, some (5883593420661338 * 2 ^ 612),
        some (5883593420661338 * 2 ^ 612), none⟩ ∧
    handleSaleSubmit ⟨"F001", some 1, .finite (3602879701896397 / 2 ^ 55), .finite 3⟩ =
      some ⟨some "F001", some 1, some (3602879701896397 / 2 ^ 55), some 3,
        some (5404319552844596 / 2 ^ 54)⟩ ∧
    (5404319552844596 / 2 ^ 54 : ℚ) ≠ 3602879701896397 / 2 ^ 55 * 3 := by
  refine ⟨?_, ?_, by norm_num⟩
  · have h : (2 : ℚ) ^ 1024 ≤
        5883593420661338 * 2 ^ 612 * (5883593420661338 * 2 ^ 612) := by
      have e : (5883593420661338 * 2 ^ 612 * (5883593420661338 * 2 ^ 612) : ℚ) =
          5883593420661338 * 5883593420661338 * 2 ^ (612 + 612) := by
        rw [pow_add]
        ring
      rw [e]
      calc (2 : ℚ) ^ 1024 ≤ 2 ^ (612 + 612) := pow_le_pow_right₀ (by norm_num) (by norm_num)
        _ = 1 * 2 ^ (612 + 612) := (one_mul _).symm
        _ ≤ 5883593420661338 * 5883593420661338 * 2 ^ (612 + 612) :=
            mul_le_mul_of_nonneg_right (by norm_num) (by positivity)
    rw [handleSaleSubmit_pos _ _ _ _ (by positivity) (by positivity), toDouble_overflow _ h]
    rfl
  · rw [handleSaleSubmit_pos _ _ _ _ (by positivity) (by positivity),
      toDouble_tenth_times_three]
    rfl

/-- C30, amended to the doubles: for a finite quantity q and price p in the
form, `handleSaleSubmit` returns without posting when q ≤ 0 or p ≤ 0, and posts
when both are positive.  Every body it posts has quantity q > 0, unitPrice
p > 0 and, as totalAmount, the double product `q * p`: q × p rounded to the
nearest double.  That total is within half a unit in the last place of q × p,
it is `null` when q × p is `2 ^ 1024` or more, and it is q × p itself when
q × p is a double (m × 2^k with |m| < 2^53 and k ≥ -1074, below `2 ^ 1024`). -/
theorem handleSaleSubmit_sends_double_product (form : SaleForm) (q p : ℚ)
    (hq : form.quantity = .finite q) (hp : form.price = .finite p) :
    ((q ≤ 0 ∨ p ≤ 0) → handleSaleSubmit form = none) ∧
    (0 < q → 0 < p →
      handleSaleSubmit form =
        some ⟨some form.familyId, form.itemId, some q, some p, (toDouble (q * p)).toJSON⟩) ∧
    (∀ req, handleSaleSubmit form = some req →
      0 < q ∧ 0 < p ∧ req.familyId = some form.familyId ∧ req.itemId = form.itemId ∧
      req.quantity = some q ∧ req.unitPrice = some p ∧
      req.totalAmount = (toDouble (q * p)).toJSON ∧
      (∀ t, req.totalAmount = some t → |t - q * p| ≤ ulp (q * p) / 2) ∧
      (2 ^ 1024 ≤ q * p → req.totalAmount = none)) ∧
    (0 < q → 0 < p → ∀ m k : ℤ, |m| < 2 ^ 53 → -1074 ≤ k → q * p = m * 2 ^ k →
      q * p < 2 ^ 1024 →
      handleSaleSubmit form =
        some ⟨some form.familyId, form.itemId, some q, some p, some (q * p)⟩) := by
  obtain ⟨fid, iid, fq, fp⟩ := form
  simp only at hq hp
  subst hq hp
  refine ⟨handleSaleSubmit_nonpos fid iid q p, handleSaleSubmit_pos fid iid q p, ?_, ?_⟩
  · intro req hreq
    by_cases h1 : q ≤ 0
    · rw [handleSaleSubmit_nonpos fid iid q p (Or.inl h1)] at hreq
      simp at hreq
    by_cases h2 : p ≤ 0
    · rw [handleSaleSubmit_nonpos fid iid q p (Or.inr h2)] at hreq
      simp at hreq
    rw [handleSaleSubmit_pos fid iid q p (not_le.mp h1) (not_le.mp h2)] at hreq
    injection hreq with hreq
    subst hreq
    refine ⟨not_le.mp h1, not_le.mp h2, rfl, rfl, rfl, rfl, rfl, ?_, ?_⟩
    · intro t ht
      apply toDouble_error
      cases hd : toDouble (q * p) with
      | nan => simp [hd, JSNumber.toJSON] at ht
      | infinity s => simp [hd, JSNumber.toJSON] at ht
      | finite x =>
        simp only [hd, JSNumber.toJSON, Option.some.injEq] at ht
        rw [ht]
    · intro hbig
      simp only [toDouble_overflow _ hbig, JSNumber.toJSON]
  · intro h1 h2 m k hm hk hx hlt
    rw [handleSaleSubmit_pos fid iid q p h1 h2,
      toDouble_representable (q * p) m k hm hk hx
        (by rw [abs_of_pos (mul_pos h1 h2)]; exact hlt)]
    rfl

/-- Instance of C30, amended: 20 units at 2 a unit are posted with total 40, a
double (5 × 2^3); -20 units are not posted. -/
theorem handleSaleSubmit_sends_double_product_witness :
    handleSaleSubmit ⟨"F001", some 1, .finite 20, .finite 2⟩ =
      some ⟨some "F001", some 1, some 20, some 2, some (20 * 2)⟩ ∧
    handleSaleSubmit ⟨"F001", some 1, .finite (-20), .finite 2⟩ = none :=
  ⟨(handleSaleSubmit_sends_double_product ⟨"F001", some 1, .finite 20, .finite 2⟩ 20 2
      rfl rfl).2.2.2 (by norm_num) (by norm_num) 5 3 (by norm_num) (by norm_num) (by norm_num)
      (lt_of_lt_of_le (by norm_num : (20 * 2 : ℚ) < 2 ^ 6)
        (pow_le_pow_right₀ (by norm_num) (by norm_num))),
   (handleSaleSubmit_sends_double_product ⟨"F001", some 1, .finite (-20), .finite 2⟩ (-20) 2
      rfl rfl).1 (Or.inl (by norm_num))⟩

end RationStore
